import Mathlib

/-!
Verification development for the gff-rs GFF V3.2 codec
(src/gff/src/common.rs, parser.rs, packer.rs).

Byte buffers are modelled as List Nat (each entry one byte). Rust strings
are modelled as lists of Unicode scalar values (Nat). Machine integers are
Nat (unsigned) or Int (signed); serialisation takes values modulo 2^w
explicitly. f32/f64 fields are modelled by their raw little-endian bit
patterns, since the codec only moves the bytes and never computes on them.
-/

namespace GffRs

/-! ## Byte-level primitives (nom combinators used by parser.rs) -/

/-- Byte of a buffer at index i; out-of-range reads yield 0 (every use is
guarded by a length check, so the default is never observable). -/
def leByte (l : List Nat) (i : Nat) : Nat := l.getD i 0

/-- Little-endian u32 value stored at byte position i. -/
def readU32 (l : List Nat) (i : Nat) : Nat :=
  leByte l i + 256 * leByte l (i+1) + 65536 * leByte l (i+2) + 16777216 * leByte l (i+3)

/-- Little-endian u16 value stored at byte position i. -/
def readU16 (l : List Nat) (i : Nat) : Nat := leByte l i + 256 * leByte l (i+1)

/-- Little-endian u64 value stored at byte position i. -/
def readU64 (l : List Nat) (i : Nat) : Nat := readU32 l i + 4294967296 * readU32 l (i+4)

/-- Two's-complement signed reinterpretation of a w-bit unsigned value. -/
def toSigned (w : Nat) (v : Nat) : Int :=
  if v < 2^(w-1) then (v : Int) else (v : Int) - ((2^w : Nat) : Int)

/-- nom take(n): the first n bytes and the remaining input, failing when the
input is shorter than n. -/
def nomTake (n : Nat) (l : List Nat) : Option (List Nat × List Nat) :=
  if n ≤ l.length then some (l.take n, l.drop n) else none

/-- nom le_u8. -/
def le_u8 (l : List Nat) : Option (Nat × List Nat) :=
  if 1 ≤ l.length then some (leByte l 0, l.drop 1) else none

/-- nom le_u16. -/
def le_u16 (l : List Nat) : Option (Nat × List Nat) :=
  if 2 ≤ l.length then some (readU16 l 0, l.drop 2) else none

/-- nom le_u32. -/
def le_u32 (l : List Nat) : Option (Nat × List Nat) :=
  if 4 ≤ l.length then some (readU32 l 0, l.drop 4) else none

/-- nom le_u64. -/
def le_u64 (l : List Nat) : Option (Nat × List Nat) :=
  if 8 ≤ l.length then some (readU64 l 0, l.drop 8) else none

/-- nom le_i8. -/
def le_i8 (l : List Nat) : Option (Int × List Nat) :=
  (le_u8 l).map (fun p => (toSigned 8 p.1, p.2))

/-- nom le_i16. -/
def le_i16 (l : List Nat) : Option (Int × List Nat) :=
  (le_u16 l).map (fun p => (toSigned 16 p.1, p.2))

/-- nom le_i32. -/
def le_i32 (l : List Nat) : Option (Int × List Nat) :=
  (le_u32 l).map (fun p => (toSigned 32 p.1, p.2))

/-- nom le_i64. -/
def le_i64 (l : List Nat) : Option (Int × List Nat) :=
  (le_u64 l).map (fun p => (toSigned 64 p.1, p.2))

/-- nom le_f32, at the bit-pattern level: an f32 is its 4 little-endian bytes. -/
def le_f32bits (l : List Nat) : Option (Nat × List Nat) := le_u32 l

/-- nom le_f64, at the bit-pattern level: an f64 is its 8 little-endian bytes. -/
def le_f64bits (l : List Nat) : Option (Nat × List Nat) := le_u64 l

/-- Little-endian bytes of a u16 (Rust u16::to_le_bytes). -/
def u16le (v : Nat) : List Nat := [v % 256, v / 256 % 256]

/-- Little-endian bytes of a u32 (Rust u32::to_le_bytes). -/
def u32le (v : Nat) : List Nat := [v % 256, v / 256 % 256, v / 65536 % 256, v / 16777216 % 256]

/-- Little-endian bytes of a u64 (Rust u64::to_le_bytes). -/
def u64le (v : Nat) : List Nat := u32le (v % 4294967296) ++ u32le (v / 4294967296)

/-- Byte of an i8 (Rust i8 as u8 cast, two's complement). -/
def i8byte (v : Int) : Nat := (v % 256).toNat

/-- Little-endian bytes of an i16. -/
def i16le (v : Int) : List Nat := u16le ((v % 65536).toNat)

/-- Little-endian bytes of an i32. -/
def i32le (v : Int) : List Nat := u32le ((v % 4294967296).toNat)

/-- Little-endian bytes of an i64. -/
def i64le (v : Int) : List Nat := u64le ((v % 18446744073709551616).toNat)

/-- Concatenation of a list of byte lists. -/
def concatAll : List (List Nat) → List Nat
  | [] => []
  | x :: r => x ++ concatAll r

/-- Boolean membership in a list of naturals (HashSet contains). -/
def memNat (n : Nat) : List Nat → Bool
  | [] => false
  | x :: r => if n = x then true else memNat n r

/-! ## Languages, genders and the substring key codec (common.rs, parser.rs, packer.rs) -/

/-- Player language ids of common.rs GffLang. -/
inductive GffLang where
  | English | French | German | Italian | Spanish | Polish
  | Korean | ChineseTrad | ChineseSimpl | Japanese
deriving DecidableEq

/-- Discriminant values of the repr(u32) GffLang enum. -/
def GffLang.val : GffLang → Nat
  | .English => 0
  | .French => 1
  | .German => 2
  | .Italian => 3
  | .Spanish => 4
  | .Polish => 5
  | .Korean => 128
  | .ChineseTrad => 129
  | .ChineseSimpl => 130
  | .Japanese => 131

/-- num_enum TryFromPrimitive for GffLang. -/
def GffLang.tryFrom (v : Nat) : Option GffLang :=
  if v = 0 then some .English
  else if v = 1 then some .French
  else if v = 2 then some .German
  else if v = 3 then some .Italian
  else if v = 4 then some .Spanish
  else if v = 5 then some .Polish
  else if v = 128 then some .Korean
  else if v = 129 then some .ChineseTrad
  else if v = 130 then some .ChineseSimpl
  else if v = 131 then some .Japanese
  else none

/-- Character gender of common.rs GffGender. -/
inductive GffGender where
  | Male | Female
deriving DecidableEq

/-- Discriminant values of the repr(u8) GffGender enum. -/
def GffGender.val : GffGender → Nat
  | .Male => 0
  | .Female => 1

/-- Substring-key decoding of parser.rs parse_substring: the gender is the key
modulo 2 (even is Male), the language is num_enum try_from of the key
divided by 2. -/
def decodeLangGender (val : Nat) : Option (GffLang × GffGender) :=
  match GffLang.tryFrom (val / 2) with
  | none => none
  | some lang => some (lang, if val % 2 = 0 then GffGender.Male else GffGender.Female)

/-- Substring-key encoding of packer.rs pack_field (CExoLocString arm, line
332): gender + 2 * lang. -/
def packLangGenderKey (lang : GffLang) (gender : GffGender) : Nat :=
  gender.val + 2 * lang.val

/-! ## Encodings (common.rs Encodings::NeverwinterNights and encoding_rs) -/

/-- Names of the encoding_rs encoders referenced by common.rs. -/
inductive EncTag where
  | Windows1252 | Windows1250 | EucKr | Big5 | Gbk | ShiftJis
deriving DecidableEq

/-- Resolver type of common.rs EncodingFn: language id to encoding, or an
error string for an unknown language. -/
def EncodingFn := Option Nat → Except String EncTag

/-- The common.rs Encodings::NeverwinterNights resolver table. -/
def neverwinterNights : EncodingFn := fun lang =>
  match lang with
  | none => .ok .Windows1252
  | some 0 => .ok .Windows1252
  | some 1 => .ok .Windows1252
  | some 2 => .ok .Windows1252
  | some 3 => .ok .Windows1252
  | some 4 => .ok .Windows1252
  | some 5 => .ok .Windows1250
  | some 128 => .ok .EucKr
  | some 129 => .ok .Big5
  | some 130 => .ok .Gbk
  | some 131 => .ok .ShiftJis
  | some _ => .error "Unknown lang"

/-- Unicode scalar value of a byte under the Windows-1252 decoder (the WHATWG
index used by the external encoding_rs crate): bytes 0x80..0x9F map through
the table below, all other bytes map to the scalar of the same value. -/
def win1252Char : Nat → Nat
  | 128 => 8364
  | 129 => 129
  | 130 => 8218
  | 131 => 402
  | 132 => 8222
  | 133 => 8230
  | 134 => 8224
  | 135 => 8225
  | 136 => 710
  | 137 => 8240
  | 138 => 352
  | 139 => 8249
  | 140 => 338
  | 141 => 141
  | 142 => 381
  | 143 => 143
  | 144 => 144
  | 145 => 8216
  | 146 => 8217
  | 147 => 8220
  | 148 => 8221
  | 149 => 8226
  | 150 => 8211
  | 151 => 8212
  | 152 => 732
  | 153 => 8482
  | 154 => 353
  | 155 => 8250
  | 156 => 339
  | 157 => 157
  | 158 => 382
  | 159 => 376
  | b => b

/-- Windows-1252 byte of a Unicode scalar, when one exists (inverse of
win1252Char). -/
def win1252Byte (c : Nat) : Option Nat :=
  if c < 128 then some c
  else if 160 ≤ c ∧ c ≤ 255 then some c
  else if c = 129 ∨ c = 141 ∨ c = 143 ∨ c = 144 ∨ c = 157 then some c
  else
    match c with
    | 8364 => some 128
    | 8218 => some 130
    | 402 => some 131
    | 8222 => some 132
    | 8230 => some 133
    | 8224 => some 134
    | 8225 => some 135
    | 710 => some 136
    | 8240 => some 137
    | 352 => some 138
    | 8249 => some 139
    | 338 => some 140
    | 381 => some 142
    | 8216 => some 145
    | 8217 => some 146
    | 8220 => some 147
    | 8221 => some 148
    | 8226 => some 149
    | 8211 => some 150
    | 8212 => some 151
    | 732 => some 152
    | 8482 => some 153
    | 353 => some 154
    | 8250 => some 155
    | 339 => some 156
    | 382 => some 158
    | 376 => some 159
    | _ => none

/-- Decimal digit codepoints of a natural number. -/
def decDigits (n : Nat) : List Nat := (Nat.toDigits 10 n).map Char.toNat

/-- encoding_rs fallback for a character the target encoding cannot express:
a decimal numeric character reference, ampersand hash digits semicolon. -/
def ncrBytes (c : Nat) : List Nat := [38, 35] ++ decDigits c ++ [59]

/-- Windows-1252 encoding of one scalar under encoding_rs semantics. -/
def win1252EncodeChar (c : Nat) : List Nat :=
  match win1252Byte c with
  | some b => [b]
  | none => ncrBytes c

/-- Modelled from the WHATWG encoding standard (the decoder encoding_rs
implements): UTF-8 decode with replacement. Lead bytes C2..DF, E0..EF,
F0..F4 with the standard continuation boundaries (E0 needs A0..BF first,
ED at most 9F, F0 needs 90..BF first, F4 at most 8F); every maximal
invalid subsequence yields one U+FFFD and decoding resumes at the first
offending byte; a truncated final sequence yields one U+FFFD. The fuel is
the number of remaining bytes: every step consumes at least one byte and
burns exactly one unit, so with fuel set to the input length (see
utf8LossyDecode below) the zero-fuel case is never reached. -/
def utf8LossyGo : Nat → List Nat → List Nat
  | _, [] => []
  | 0, _ :: _ => []
  | fuel + 1, b :: rest =>
    if b ≤ 127 then b :: utf8LossyGo fuel rest
    else if 194 ≤ b ∧ b ≤ 223 then
      match rest with
      | c :: r =>
        if 128 ≤ c ∧ c ≤ 191 then
          ((b - 192) * 64 + (c - 128)) :: utf8LossyGo fuel r
        else 65533 :: utf8LossyGo fuel rest
      | [] => [65533]
    else if 224 ≤ b ∧ b ≤ 239 then
      match rest with
      | c :: r =>
        if (if b = 224 then 160 else 128) ≤ c ∧ c ≤ (if b = 237 then 159 else 191) then
          match r with
          | d :: r2 =>
            if 128 ≤ d ∧ d ≤ 191 then
              ((b - 224) * 4096 + (c - 128) * 64 + (d - 128)) :: utf8LossyGo fuel r2
            else 65533 :: utf8LossyGo fuel r
          | [] => [65533]
        else 65533 :: utf8LossyGo fuel rest
      | [] => [65533]
    else if 240 ≤ b ∧ b ≤ 244 then
      match rest with
      | c :: r =>
        if (if b = 240 then 144 else 128) ≤ c ∧ c ≤ (if b = 244 then 143 else 191) then
          match r with
          | d :: r2 =>
            if 128 ≤ d ∧ d ≤ 191 then
              match r2 with
              | e :: r3 =>
                if 128 ≤ e ∧ e ≤ 191 then
                  ((b - 240) * 262144 + (c - 128) * 4096 + (d - 128) * 64 + (e - 128)) ::
                    utf8LossyGo fuel r3
                else 65533 :: utf8LossyGo fuel r2
              | [] => [65533]
            else 65533 :: utf8LossyGo fuel r
          | [] => [65533]
        else 65533 :: utf8LossyGo fuel rest
      | [] => [65533]
    else 65533 :: utf8LossyGo fuel rest

/-- UTF-8 decode with replacement of a whole byte list. -/
def utf8LossyDecode (bs : List Nat) : List Nat := utf8LossyGo bs.length bs

/-- Modelled from the WHATWG encoding standard (the decoder encoding_rs
implements): shared UTF-16 decoder with replacement. le selects the byte
order of each 16-bit unit; the Option argument holds an unpaired lead
surrogate. A lead followed by a trail combines; a lead followed by a
non-trail unit yields U+FFFD and the unit is reprocessed; a lone trail
yields U+FFFD; at end of input a single U+FFFD covers a pending lead, a
dangling odd byte, or both at once. -/
def utf16Lossy (le : Bool) : Option Nat → List Nat → List Nat
  | some lead, b0 :: b1 :: r =>
    let u := if le then b0 + 256 * b1 else 256 * b0 + b1
    if 56320 ≤ u ∧ u ≤ 57343 then
      (65536 + (lead - 55296) * 1024 + (u - 56320)) :: utf16Lossy le none r
    else
      65533 :: (if 55296 ≤ u ∧ u ≤ 56319 then utf16Lossy le (some u) r
                else u :: utf16Lossy le none r)
  | none, b0 :: b1 :: r =>
    let u := if le then b0 + 256 * b1 else 256 * b0 + b1
    if 55296 ≤ u ∧ u ≤ 56319 then utf16Lossy le (some u) r
    else if 56320 ≤ u ∧ u ≤ 57343 then 65533 :: utf16Lossy le none r
    else u :: utf16Lossy le none r
  | some _, [_] => [65533]
  | none, [_] => [65533]
  | some _, [] => [65533]
  | none, [] => []

/-- Decoder of an encoding tag, bytes to Unicode scalars: encoding_rs
Encoding::decode, the three-tuple method the parser calls. It sniffs a
byte-order mark first: EF BB BF selects UTF-8, FF FE selects UTF-16LE,
FE FF selects UTF-16BE, each overriding the nominal encoding, with the
mark stripped; otherwise the bytes are decoded by the nominal encoding.
Only Windows-1252 is exercised by the claims of this development; the
multi-byte CJK codecs and Windows-1250 live in the external encoding_rs
crate and are modelled here as the identity on byte values. -/
def decodeBytes (tag : EncTag) (bs : List Nat) : List Nat :=
  if bs.take 3 = [239, 187, 191] then utf8LossyDecode (bs.drop 3)
  else if bs.take 2 = [255, 254] then utf16Lossy true none (bs.drop 2)
  else if bs.take 2 = [254, 255] then utf16Lossy false none (bs.drop 2)
  else
    match tag with
    | .Windows1252 => bs.map win1252Char
    | _ => bs

/-- Encoder of an encoding tag, Unicode scalars to bytes (same modelling
note as decodeBytes). -/
def encodeChars : EncTag → List Nat → List Nat
  | .Windows1252, cs => concatAll (cs.map win1252EncodeChar)
  | _, cs => cs

/-! ## UTF-8 (Rust String::from_utf8 / str::as_bytes) -/

/-- UTF-8 bytes of one Unicode scalar. -/
def utf8EncodeChar (c : Nat) : List Nat :=
  if c < 128 then [c]
  else if c < 2048 then [192 + c / 64, 128 + c % 64]
  else if c < 65536 then [224 + c / 4096, 128 + c / 64 % 64, 128 + c % 64]
  else [240 + c / 262144, 128 + c / 4096 % 64, 128 + c / 64 % 64, 128 + c % 64]

/-- Rust str::as_bytes / String::into_bytes. -/
def utf8Encode (cs : List Nat) : List Nat := concatAll (cs.map utf8EncodeChar)

/-- Validating UTF-8 decoder (Rust String::from_utf8): rejects stray
continuation bytes, overlong forms, surrogates and values above 0x10FFFF. -/
def utf8Decode : List Nat → Option (List Nat)
  | [] => some []
  | b :: rest =>
    if b ≤ 127 then (utf8Decode rest).map (fun cs => b :: cs)
    else if 194 ≤ b ∧ b ≤ 223 then
      match rest with
      | c :: r =>
        if 128 ≤ c ∧ c ≤ 191 then
          (utf8Decode r).map (fun cs => ((b - 192) * 64 + (c - 128)) :: cs)
        else none
      | _ => none
    else if 224 ≤ b ∧ b ≤ 239 then
      match rest with
      | c :: d :: r =>
        let lo := if b = 224 then 160 else 128
        let hi := if b = 237 then 159 else 191
        if lo ≤ c ∧ c ≤ hi ∧ 128 ≤ d ∧ d ≤ 191 then
          (utf8Decode r).map
            (fun cs => ((b - 224) * 4096 + (c - 128) * 64 + (d - 128)) :: cs)
        else none
      | _ => none
    else if 240 ≤ b ∧ b ≤ 244 then
      match rest with
      | c :: d :: e :: r =>
        let lo := if b = 240 then 144 else 128
        let hi := if b = 244 then 143 else 191
        if lo ≤ c ∧ c ≤ hi ∧ 128 ≤ d ∧ d ≤ 191 ∧ 128 ≤ e ∧ e ≤ 191 then
          (utf8Decode r).map
            (fun cs =>
              ((b - 240) * 262144 + (c - 128) * 4096 + (d - 128) * 64 + (e - 128)) :: cs)
        else none
      | _ => none
    else none

/-- Rust str::to_lowercase, modelled on the ASCII range (the only range any
value in this development exercises). -/
def toLowercase (cs : List Nat) : List Nat :=
  cs.map (fun c => if 65 ≤ c ∧ c ≤ 90 then c + 32 else c)

/-! ## Value model (common.rs GffFieldValue / GffStruct)

Strings are lists of Unicode scalars; labels (HashMap String keys) likewise.
The HashMap of fields is modelled as an association list; Rust HashMap
iteration order is unspecified, the model fixes it to list order. -/

mutual
inductive GffFieldValue where
  | Byte (v : Nat)
  | CExoLocString (tlk_ref : Nat) (strs : List ((GffLang × GffGender) × List Nat))
  | CExoString (s : List Nat)
  | Char (v : Int)
  | CResRef (s : List Nat)
  | Double (bits : Nat)
  | DWord (v : Nat)
  | DWord64 (v : Nat)
  | Float (bits : Nat)
  | Int (v : Int)
  | Int64 (v : Int)
  | Short (v : Int)
  | Void (data : List Nat)
  | Word (v : Nat)
  | Struct (s : GffStruct)
  | List (l : List GffStruct)
  | Invalid

inductive GffStruct where
  | mk (st_type : Nat) (fields : List (List Nat × GffFieldValue))
end

/-- The struct type tag. -/
def GffStruct.st_type : GffStruct → Nat
  | .mk t _ => t

/-- The field mapping of a struct. -/
def GffStruct.fields : GffStruct → List (List Nat × GffFieldValue)
  | .mk _ f => f

/-- HashMap insert on the association-list model: replace the value when the
key is present, otherwise append. -/
def hmInsert {α β : Type} [DecidableEq α] : List (α × β) → α → β → List (α × β)
  | [], k, v => [(k, v)]
  | (k0, v0) :: r, k, v =>
    if k0 = k then (k0, v) :: r else (k0, v0) :: hmInsert r k v

/-- HashMap collected from an iterator of pairs. -/
def hmFromList {α β : Type} [DecidableEq α] (l : List (α × β)) : List (α × β) :=
  l.foldl (fun m p => hmInsert m p.1 p.2) []

/-! ## Parser (parser.rs)

The nom error of the source is refined into constructors naming the failing
check: ParseFail for a take/read/map_res failure, PanicAssert for a Rust
assert or unwrap, CycleDetected for the visited-set verify of the type-14
and list-entry sites. FuelOut is a model artifact: the mutual recursion is
driven by a fuel argument; parse passes more fuel than any input can
consume. -/

/-- Header and data blocks of a GFF file (parser.rs struct Data). Counts of
the other blocks are not consulted after slicing and are not retained. -/
structure Data where
  stCount : Nat
  fCount : Nat
  fiCount : Nat
  structs : List Nat
  fields : List Nat
  labels : List Nat
  field_data : List Nat
  field_indices : List Nat
  list_indices : List Nat
deriving DecidableEq

/-- Data-phase parse failures, by failing check. -/
inductive DErr where
  | ParseFail | PanicAssert | CycleDetected | FuelOut
deriving DecidableEq

/-- Top-level parse error: the source wraps header-phase and data-phase nom
errors into two distinct strings; the model keeps the same two phases. -/
inductive PError where
  | MalformedHeader
  | DataError (e : DErr)
deriving DecidableEq

/-- parse_header of parser.rs: take the 56 header bytes, read the six
(offset, count) pairs, verify each offset against the running u32 offset,
slice the six blocks (element sizes 12, 12, 16, 1, 1, 1), and require the
last block to consume the input exactly (all_consuming). The magic and
version bytes are taken but not inspected, exactly as in the source. The
struct, field and label block byte sizes are the u32 products count times
element size, reduced mod 2^32 as in a release build (a debug build panics
on the overflow instead), and the running offset the source accumulates in
data_offset is likewise u32, reduced mod 2^32 at each addition. -/
def parse_header (B : List Nat) : Option Data :=
  if 56 ≤ B.length then
    let c1 := readU32 B 12
    let c2 := readU32 B 20
    let c3 := readU32 B 28
    let c4 := readU32 B 36
    let c5 := readU32 B 44
    let c6 := readU32 B 52
    let s1 := 12 * c1 % 4294967296
    let s2 := 12 * c2 % 4294967296
    let s3 := 16 * c3 % 4294967296
    let o1 := (56 + s1) % 4294967296
    let o2 := (o1 + s2) % 4294967296
    let o3 := (o2 + s3) % 4294967296
    let o4 := (o3 + c4) % 4294967296
    let o5 := (o4 + c5) % 4294967296
    let r0 := B.drop 56
    if readU32 B 8 = 56 ∧ s1 ≤ r0.length then
      let r1 := r0.drop s1
      if readU32 B 16 = o1 ∧ s2 ≤ r1.length then
        let r2 := r1.drop s2
        if readU32 B 24 = o2 ∧ s3 ≤ r2.length then
          let r3 := r2.drop s3
          if readU32 B 32 = o3 ∧ c4 ≤ r3.length then
            let r4 := r3.drop c4
            if readU32 B 40 = o4 ∧ c5 ≤ r4.length then
              let r5 := r4.drop c5
              if readU32 B 48 = o5 ∧ r5.length = c6 then
                some {
                  stCount := c1
                  fCount := c2
                  fiCount := c5
                  structs := r0.take s1
                  fields := r1.take s2
                  labels := r2.take s3
                  field_data := r3.take c4
                  field_indices := r4.take c5
                  list_indices := r5
                }
              else none
            else none
          else none
        else none
      else none
    else none
  else none

/-- parse_label of parser.rs: skip 16 times the label index, take 16 bytes,
truncate at the first NUL, validate as UTF-8. -/
def parse_label (d : Data) (lbl_idx : Nat) : Option (List Nat) :=
  match nomTake (lbl_idx * 16) d.labels with
  | none => none
  | some (_, input) =>
    match nomTake 16 input with
    | none => none
    | some (sixteen, _) => utf8Decode (sixteen.takeWhile (fun c => c ≠ 0))

/-- parse_dword64 of parser.rs. -/
def parse_dword64 (d : Data) (offset : Nat) : Except DErr GffFieldValue :=
  match nomTake offset d.field_data with
  | none => .error .ParseFail
  | some (_, input) =>
    match le_u64 input with
    | none => .error .ParseFail
    | some (v, _) => .ok (.DWord64 v)

/-- parse_double of parser.rs (bit-pattern level). -/
def parse_double (d : Data) (offset : Nat) : Except DErr GffFieldValue :=
  match nomTake offset d.field_data with
  | none => .error .ParseFail
  | some (_, input) =>
    match le_f64bits input with
    | none => .error .ParseFail
    | some (v, _) => .ok (.Double v)

/-- parse_int64 of parser.rs. -/
def parse_int64 (d : Data) (offset : Nat) : Except DErr GffFieldValue :=
  match nomTake offset d.field_data with
  | none => .error .ParseFail
  | some (_, input) =>
    match le_i64 input with
    | none => .error .ParseFail
    | some (v, _) => .ok (.Int64 v)

/-- parse_cexostring of parser.rs: the stored bytes are decoded with the
encoding the resolver returns for None; the unwrap on the resolver is a
panic when the resolver errors. -/
def parse_cexostring (enc : EncodingFn) (d : Data) (offset : Nat) :
    Except DErr GffFieldValue :=
  match enc none with
  | .error _ => .error .PanicAssert
  | .ok tag =>
    match nomTake offset d.field_data with
    | none => .error .ParseFail
    | some (_, input) =>
      match le_u32 input with
      | none => .error .ParseFail
      | some (len, input) =>
        match nomTake len input with
        | none => .error .ParseFail
        | some (slice, _) => .ok (.CExoString (decodeBytes tag slice))

/-- parse_cresref of parser.rs: a u8 length prefix, then each stored byte is
cast to a char of the same value (the resolver is not consulted). -/
def parse_cresref (d : Data) (offset : Nat) : Except DErr GffFieldValue :=
  match nomTake offset d.field_data with
  | none => .error .ParseFail
  | some (_, input) =>
    match le_u8 input with
    | none => .error .ParseFail
    | some (len, input) =>
      match nomTake len input with
      | none => .error .ParseFail
      | some (slice, _) => .ok (.CResRef slice)

/-- parse_void of parser.rs. -/
def parse_void (d : Data) (offset : Nat) : Except DErr GffFieldValue :=
  match nomTake offset d.field_data with
  | none => .error .ParseFail
  | some (_, input) =>
    match le_u32 input with
    | none => .error .ParseFail
    | some (len, input) =>
      match nomTake len input with
      | none => .error .ParseFail
      | some (slice, _) => .ok (.Void slice)

/-- The substring loop of parse_cexosloctring: count applications of
parse_substring; bytes left over inside the payload slice are ignored
(map_parser). A key whose language is not in the GffLang enum is a map_res
failure; a resolver error under the unwrap is a panic. -/
def parse_substrings (enc : EncodingFn) :
    List Nat → Nat → Except DErr (List ((GffLang × GffGender) × List Nat))
  | _, 0 => .ok []
  | input, n + 1 =>
    match le_u32 input with
    | none => .error .ParseFail
    | some (key, input) =>
      match decodeLangGender key with
      | none => .error .ParseFail
      | some (lang, gender) =>
        match enc (some lang.val) with
        | .error _ => .error .PanicAssert
        | .ok tag =>
          match le_u32 input with
          | none => .error .ParseFail
          | some (len, input) =>
            match nomTake len input with
            | none => .error .ParseFail
            | some (slice, input) =>
              match parse_substrings enc input n with
              | .error e => .error e
              | .ok rest => .ok (((lang, gender), decodeBytes tag slice) :: rest)

/-- parse_cexosloctring of parser.rs (the name keeps the source's spelling):
total length, tlk_ref, substring count, then the substrings inside a slice
of total length minus 8 bytes. A total length below 8 underflows usize in
the source (a panic in a debug build), modelled as PanicAssert. -/
def parse_cexosloctring (enc : EncodingFn) (d : Data) (offset : Nat) :
    Except DErr GffFieldValue :=
  match nomTake offset d.field_data with
  | none => .error .ParseFail
  | some (_, input) =>
    match le_u32 input with
    | none => .error .ParseFail
    | some (len, input) =>
      match le_u32 input with
      | none => .error .ParseFail
      | some (tlk_ref, input) =>
        match le_u32 input with
        | none => .error .ParseFail
        | some (str_count, input) =>
          if len < 8 then .error .PanicAssert
          else
            match nomTake (len - 8) input with
            | none => .error .ParseFail
            | some (payload, _) =>
              match parse_substrings enc payload str_count with
              | .error e => .error e
              | .ok pairs => .ok (.CExoLocString tlk_ref (hmFromList pairs))

/-- The count loop inside parse_field_indices, parameterised by the field
parser it applies to each of the f_count u32 field indices. -/
def fieldsLoopWith
    (pf : List Nat -> Nat -> Except DErr ((List Nat × GffFieldValue) × List Nat)) :
    List Nat -> List Nat -> Nat ->
    Except DErr (List (List Nat × GffFieldValue) × List Nat)
  | visited, _, 0 => .ok ([], visited)
  | visited, input, n + 1 =>
    match le_u32 input with
    | none => .error .ParseFail
    | some (f_idx, input) =>
      match pf visited f_idx with
      | .error e => .error e
      | .ok (fld, visited) =>
        match fieldsLoopWith pf visited input n with
        | .error e => .error e
        | .ok (flds, visited) => .ok (fld :: flds, visited)

/-- The count loop of parse_list, parameterised by the struct parser: each
entry's struct index is verified against the visited set before the struct
parser recurses into it; an index already present is the cycle check's
failure. -/
def listLoopWith (ps : List Nat -> Nat -> Except DErr (GffStruct × List Nat)) :
    List Nat -> List Nat -> Nat -> Except DErr (List GffStruct × List Nat)
  | visited, _, 0 => .ok ([], visited)
  | visited, input, n + 1 =>
    match le_u32 input with
    | none => .error .ParseFail
    | some (st_idx, input) =>
      if memNat st_idx visited then .error .CycleDetected
      else
        match ps (st_idx :: visited) st_idx with
        | .error e => .error e
        | .ok (st, visited) =>
          match listLoopWith ps visited input n with
          | .error e => .error e
          | .ok (sts, visited) => .ok (st :: sts, visited)

/-- The four mutually recursive parsing functions of parser.rs, bundled so
the mutual recursion can be driven by a plain structural recursion on fuel
(a model artifact: GffParser::parse passes more fuel than any input can
consume, and recursion depth is bounded by the visited set in any case). -/
structure ParserPack where
  pStruct : List Nat -> Nat -> Except DErr (GffStruct × List Nat)
  pField : List Nat -> Nat -> Except DErr ((List Nat × GffFieldValue) × List Nat)
  pFieldIndices : List Nat -> Nat -> Nat ->
    Except DErr (List (List Nat × GffFieldValue) × List Nat)
  pList : List Nat -> Nat -> Except DErr (List GffStruct × List Nat)

/-- Exhausted fuel (never reached from parse). -/
def parsersZero : ParserPack where
  pStruct := fun _ _ => .error .FuelOut
  pField := fun _ _ => .error .FuelOut
  pFieldIndices := fun _ _ _ => .error .FuelOut
  pList := fun _ _ => .error .FuelOut

/-- The value dispatch of parse_field of parser.rs: the source's match on
the u32 type code, modelled as equality tests, applied to the input that
follows the record's type and label words. Out-of-line variants read a u32
offset from the data slot and delegate to the per-type parser; type 14
verifies the visited-set insert before recursing through the given struct
parser (an already-present index is the cycle check's failure); type 15
delegates to the given list parser; a type code with no arm (16 and above)
produces Invalid and no error. -/
def parse_value (enc : EncodingFn) (d : Data)
    (pStructPrev : List Nat -> Nat -> Except DErr (GffStruct × List Nat))
    (pListPrev : List Nat -> Nat -> Except DErr (List GffStruct × List Nat))
    (visited : List Nat) (gff_type : Nat) (input : List Nat) :
    Except DErr (GffFieldValue × List Nat) :=
  if gff_type = 0 then
    match le_u8 input with
    | none => .error .ParseFail
    | some (v, _) => .ok (.Byte v, visited)
  else if gff_type = 1 then
    match le_i8 input with
    | none => .error .ParseFail
    | some (v, _) => .ok (.Char v, visited)
  else if gff_type = 2 then
    match le_u16 input with
    | none => .error .ParseFail
    | some (v, _) => .ok (.Word v, visited)
  else if gff_type = 3 then
    match le_i16 input with
    | none => .error .ParseFail
    | some (v, _) => .ok (.Short v, visited)
  else if gff_type = 4 then
    match le_u32 input with
    | none => .error .ParseFail
    | some (v, _) => .ok (.DWord v, visited)
  else if gff_type = 5 then
    match le_i32 input with
    | none => .error .ParseFail
    | some (v, _) => .ok (.Int v, visited)
  else if gff_type = 6 then
    match le_u32 input with
    | none => .error .ParseFail
    | some (offset, _) =>
      match parse_dword64 d offset with
      | .error e => .error e
      | .ok v => .ok (v, visited)
  else if gff_type = 7 then
    match le_u32 input with
    | none => .error .ParseFail
    | some (offset, _) =>
      match parse_int64 d offset with
      | .error e => .error e
      | .ok v => .ok (v, visited)
  else if gff_type = 8 then
    match le_f32bits input with
    | none => .error .ParseFail
    | some (v, _) => .ok (.Float v, visited)
  else if gff_type = 9 then
    match le_u32 input with
    | none => .error .ParseFail
    | some (offset, _) =>
      match parse_double d offset with
      | .error e => .error e
      | .ok v => .ok (v, visited)
  else if gff_type = 10 then
    match le_u32 input with
    | none => .error .ParseFail
    | some (offset, _) =>
      match parse_cexostring enc d offset with
      | .error e => .error e
      | .ok v => .ok (v, visited)
  else if gff_type = 11 then
    match le_u32 input with
    | none => .error .ParseFail
    | some (offset, _) =>
      match parse_cresref d offset with
      | .error e => .error e
      | .ok v => .ok (v, visited)
  else if gff_type = 12 then
    match le_u32 input with
    | none => .error .ParseFail
    | some (offset, _) =>
      match parse_cexosloctring enc d offset with
      | .error e => .error e
      | .ok v => .ok (v, visited)
  else if gff_type = 13 then
    match le_u32 input with
    | none => .error .ParseFail
    | some (offset, _) =>
      match parse_void d offset with
      | .error e => .error e
      | .ok v => .ok (v, visited)
  else if gff_type = 14 then
    match le_u32 input with
    | none => .error .ParseFail
    | some (st_idx, _) =>
      if memNat st_idx visited then .error .CycleDetected
      else
        match pStructPrev (st_idx :: visited) st_idx with
        | .error e => .error e
        | .ok (st, visited) => .ok (.Struct st, visited)
  else if gff_type = 15 then
    match le_u32 input with
    | none => .error .ParseFail
    | some (li_idx, _) =>
      match pListPrev visited li_idx with
      | .error e => .error e
      | .ok (sts, visited) => .ok (.List sts, visited)
  else
    .ok (.Invalid, visited)

/-- parse_struct of parser.rs (one fuel level). The struct record's type tag
is read into a discarded binder (the source names it underscore st_type)
and the GffStruct literals of the source omit the st_type field altogether
(parser.rs lines 152, 155, 160) — a literal rustc rejects, and in any case
a parser that cannot return the tag; the model materialises the omitted
field as 0. The assert on the struct index precedes everything else. -/
def pStructF (enc : EncodingFn) (d : Data) (prev : ParserPack)
    (visited : List Nat) (st_idx : Nat) : Except DErr (GffStruct × List Nat) :=
  if st_idx < d.stCount then
    match nomTake (12 * st_idx) d.structs with
    | none => .error .ParseFail
    | some (_, input) =>
      match le_u32 input with
      | none => .error .ParseFail
      | some (_st_type, input) =>
        match le_u32 input with
        | none => .error .ParseFail
        | some (field_offset, input) =>
          match le_u32 input with
          | none => .error .ParseFail
          | some (field_count, _) =>
            match field_count with
            | 0 => .ok (GffStruct.mk 0 [], visited)
            | 1 =>
              match prev.pField visited field_offset with
              | .error e => .error e
              | .ok (fld, visited) =>
                .ok (GffStruct.mk 0 (hmFromList [fld]), visited)
            | _ =>
              match prev.pFieldIndices visited field_offset field_count with
              | .error e => .error e
              | .ok (flds, visited) =>
                .ok (GffStruct.mk 0 (hmFromList flds), visited)
  else .error .PanicAssert

/-- parse_field of parser.rs (one fuel level): assert the field index bound,
read the 12-byte record's type code and label index, dispatch on the type
code through parse_value, then read the label. -/
def pFieldF (enc : EncodingFn) (d : Data) (prev : ParserPack)
    (visited : List Nat) (f_idx : Nat) :
    Except DErr ((List Nat × GffFieldValue) × List Nat) :=
  if f_idx < d.fCount then
    match nomTake (12 * f_idx) d.fields with
    | none => .error .ParseFail
    | some (_, input) =>
      match le_u32 input with
      | none => .error .ParseFail
      | some (gff_type, input) =>
        match le_u32 input with
        | none => .error .ParseFail
        | some (lbl_idx, input) =>
          match parse_value enc d prev.pStruct prev.pList visited gff_type input with
          | .error e => .error e
          | .ok (value, visited) =>
            match parse_label d lbl_idx with
            | none => .error .ParseFail
            | some label => .ok ((label, value), visited)
  else .error .PanicAssert

/-- parse_field_indices of parser.rs (one fuel level): assert the byte
offset is 4-aligned and below the field_indices count, skip to it, then
read field_count u32 field indices, parsing each field. -/
def pFieldIndicesF (enc : EncodingFn) (d : Data) (prev : ParserPack)
    (visited : List Nat) (offset f_count : Nat) :
    Except DErr (List (List Nat × GffFieldValue) × List Nat) :=
  if offset % 4 = 0 ∧ offset < d.fiCount then
    match nomTake offset d.field_indices with
    | none => .error .ParseFail
    | some (_, input) => fieldsLoopWith prev.pField visited input f_count
  else .error .PanicAssert

/-- parse_list of parser.rs (one fuel level): assert 4-alignment of the
byte offset, skip to it, read the list size, then run the entry loop. -/
def pListF (enc : EncodingFn) (d : Data) (prev : ParserPack)
    (visited : List Nat) (offset : Nat) : Except DErr (List GffStruct × List Nat) :=
  if offset % 4 = 0 then
    match nomTake offset d.list_indices with
    | none => .error .ParseFail
    | some (_, input) =>
      match le_u32 input with
      | none => .error .ParseFail
      | some (list_size, input) => listLoopWith prev.pStruct visited input list_size
  else .error .PanicAssert

/-- One fuel level of the parser. -/
def parsersSucc (enc : EncodingFn) (d : Data) (prev : ParserPack) : ParserPack where
  pStruct := pStructF enc d prev
  pField := pFieldF enc d prev
  pFieldIndices := pFieldIndicesF enc d prev
  pList := pListF enc d prev

/-- The fuel-indexed tower of parsers. -/
def parsers (enc : EncodingFn) (d : Data) : Nat -> ParserPack
  | 0 => parsersZero
  | f + 1 => parsersSucc enc d (parsers enc d f)

/-- parse_struct of parser.rs at a given fuel (see parsersSucc.pStruct). -/
def parse_struct (enc : EncodingFn) (d : Data) (fuel : Nat)
    (visited : List Nat) (st_idx : Nat) : Except DErr (GffStruct × List Nat) :=
  (parsers enc d fuel).pStruct visited st_idx

/-- parse_field of parser.rs at a given fuel (see parsersSucc.pField). -/
def parse_field (enc : EncodingFn) (d : Data) (fuel : Nat)
    (visited : List Nat) (f_idx : Nat) :
    Except DErr ((List Nat × GffFieldValue) × List Nat) :=
  (parsers enc d fuel).pField visited f_idx

/-- parse_field_indices of parser.rs at a given fuel. -/
def parse_field_indices (enc : EncodingFn) (d : Data) (fuel : Nat)
    (visited : List Nat) (offset f_count : Nat) :
    Except DErr (List (List Nat × GffFieldValue) × List Nat) :=
  (parsers enc d fuel).pFieldIndices visited offset f_count

/-- parse_list of parser.rs at a given fuel (see parsersSucc.pList). -/
def parse_list (enc : EncodingFn) (d : Data) (fuel : Nat)
    (visited : List Nat) (offset : Nat) : Except DErr (List GffStruct × List Nat) :=
  (parsers enc d fuel).pList visited offset

/-- GffParser::parse of parser.rs: parse the header (failures become the
header-phase error), then materialise struct 0 with an empty visited set.
The fuel exceeds what any input of this length can consume. -/
def parse (B : List Nat) (enc : EncodingFn) : Except PError GffStruct :=
  match parse_header B with
  | none => .error .MalformedHeader
  | some d =>
    match parse_struct enc d (B.length + 64) [] 0 with
    | .error e => .error (.DataError e)
    | .ok (st, _) => .ok st

/-! ## Packer (packer.rs)

PackerState flattens the source's Packer: the six count fields mirror the
GffHeader second components (structs.1, fields.1, labels.1, field_data.1,
field_indices.1, list_indices.1), the six lists the Vec u8 blocks of
PackData, and labelsMap the label-interning HashMap of Packer. The struct
queue and the current struct index are threaded explicitly, as the source
threads its structs vector and current_st_idx. Fields of a struct are
iterated in association-list order; the source iterates a HashMap in an
unspecified order. -/

structure PackerState where
  stCount : Nat
  fCount : Nat
  lblCount : Nat
  fdCount : Nat
  fiCount : Nat
  liCount : Nat
  structs : List Nat
  fields : List Nat
  labels : List Nat
  field_data : List Nat
  field_indices : List Nat
  list_indices : List Nat
  labelsMap : List (List Nat × Nat)
deriving DecidableEq

/-- The freshly constructed packer (PackData::new). -/
def PackerState.empty : PackerState :=
  ⟨0, 0, 0, 0, 0, 0, [], [], [], [], [], [], []⟩

/-- Association-list lookup for the label map. -/
def lookupLabel (m : List (List Nat × Nat)) (k : List Nat) : Option Nat :=
  match m with
  | [] => none
  | (k0, v0) :: r => if k0 = k then some v0 else lookupLabel r k

/-- pack_label of packer.rs: entry(label).or_insert(map length); a fresh
index equals the labels count, in which case the count is bumped, the
length checked (over 16 UTF-8 bytes is the label-too-long error), and 16
NUL-padded bytes appended. -/
def pack_label (s : PackerState) (label : List Nat) : Except String (Nat × PackerState) :=
  let max_label_idx := s.labelsMap.length
  let found := lookupLabel s.labelsMap label
  let label_idx := match found with
    | some i => i
    | none => max_label_idx
  let s := match found with
    | some _ => s
    | none => { s with labelsMap := s.labelsMap ++ [(label, max_label_idx)] }
  if label_idx = s.lblCount then
    let s := { s with lblCount := s.lblCount + 1 }
    let label_data := utf8Encode label
    if 16 < label_data.length then .error "label too long"
    else
      .ok (label_idx,
        { s with labels := s.labels ++ label_data ++ List.replicate (16 - label_data.length) 0 })
  else .ok (label_idx, s)

/-- pack_val_1 of packer.rs: type, label, one data byte, three NUL bytes. -/
def pack_val_1 (s : PackerState) (ftype lbl_idx v : Nat) : PackerState :=
  { s with fields := s.fields ++ u32le ftype ++ u32le lbl_idx ++ [v, 0, 0, 0] }

/-- pack_val_2 of packer.rs: type, label, two data bytes, two NUL bytes. -/
def pack_val_2 (s : PackerState) (ftype lbl_idx : Nat) (v : List Nat) : PackerState :=
  { s with fields := s.fields ++ u32le ftype ++ u32le lbl_idx ++ v ++ [0, 0] }

/-- pack_val_4 of packer.rs: type, label, four data bytes. -/
def pack_val_4 (s : PackerState) (ftype lbl_idx : Nat) (v : List Nat) : PackerState :=
  { s with fields := s.fields ++ u32le ftype ++ u32le lbl_idx ++ v }

/-- pack_data_offset of packer.rs: the slot holds the current field_data
length. -/
def pack_data_offset (s : PackerState) (ftype lbl_idx : Nat) : PackerState :=
  pack_val_4 s ftype lbl_idx (u32le s.field_data.length)

/-- pack_val_8 of packer.rs: offset slot, then 8 bytes into field_data. -/
def pack_val_8 (s : PackerState) (ftype lbl_idx : Nat) (v : List Nat) : PackerState :=
  let s := pack_data_offset s ftype lbl_idx
  { s with field_data := s.field_data ++ v, fdCount := s.fdCount + 8 }

/-- pack_data_u32 of packer.rs. -/
def pack_data_u32 (s : PackerState) (v : Nat) : PackerState :=
  { s with field_data := s.field_data ++ u32le v, fdCount := s.fdCount + 4 }

/-- pack_data_slice of packer.rs. -/
def pack_data_slice (s : PackerState) (v : List Nat) : PackerState :=
  { s with field_data := s.field_data ++ v, fdCount := s.fdCount + v.length }

/-- pack_list_u32 of packer.rs. -/
def pack_list_u32 (s : PackerState) (v : Nat) : PackerState :=
  { s with list_indices := s.list_indices ++ u32le v, liCount := s.liCount + 4 }

/-- The CExoLocString pre-encoding pass of pack_field: each substring is
encoded with the resolver's encoding for its language (the unwrap is a
panic when the resolver errors, modelled as an error). -/
def encodeSubstrings (enc : EncodingFn) :
    List ((GffLang × GffGender) × List Nat) →
    Except String (List (GffLang × GffGender × List Nat))
  | [] => .ok []
  | ((lang, gender), str) :: r =>
    match enc (some lang.val) with
    | .error _ => .error "unwrap panicked on encoding resolver"
    | .ok tag =>
      match encodeSubstrings enc r with
      | .error e => .error e
      | .ok rest => .ok ((lang, gender, encodeChars tag str) :: rest)

/-- Sum of 8 + length over encoded substrings (the total_len accumulation
of pack_field's CExoLocString arm). -/
def substringsLen : List (GffLang × GffGender × List Nat) → Nat
  | [] => 0
  | (_, _, bs) :: r => 8 + bs.length + substringsLen r

/-- The substring emission loop of pack_field's CExoLocString arm: key as
gender + 2 * lang, length, bytes. -/
def packSubstrings (s : PackerState) :
    List (GffLang × GffGender × List Nat) → PackerState
  | [] => s
  | (lang, gender, bs) :: r =>
    let s := pack_data_u32 s (packLangGenderKey lang gender)
    let s := pack_data_u32 s bs.length
    let s := pack_data_slice s bs
    packSubstrings s r

/-- The list-entry emission loop of pack_field's List arm: each entry bumps
the current struct index, writes it into list_indices and enqueues the
struct. -/
def packListEntries :
    List GffStruct → List GffStruct → Nat → PackerState →
    (List GffStruct × Nat × PackerState)
  | [], queue, idx, s => (queue, idx, s)
  | st :: r, queue, idx, s =>
    let idx := idx + 1
    let s := pack_list_u32 s idx
    packListEntries r (queue ++ [st]) idx s

/-- pack_field of packer.rs: intern the label, bump the field count, then
dispatch on the value variant. Returns the new field's index (field count
minus one) plus the updated queue, current struct index and state. The
catch-all arm — reached only by Invalid — is the not-handled-yet error. -/
def pack_field (enc : EncodingFn) (field_name : List Nat) (field_value : GffFieldValue)
    (queue : List GffStruct) (current_st_idx : Nat) (s : PackerState) :
    Except String (Nat × List GffStruct × Nat × PackerState) :=
  match pack_label s field_name with
  | .error e => .error e
  | .ok (label_idx, s) =>
    let s := { s with fCount := s.fCount + 1 }
    match field_value with
    | .Byte v => .ok (s.fCount - 1, queue, current_st_idx, pack_val_1 s 0 label_idx v)
    | .Char v => .ok (s.fCount - 1, queue, current_st_idx, pack_val_1 s 1 label_idx (i8byte v))
    | .Word v => .ok (s.fCount - 1, queue, current_st_idx, pack_val_2 s 2 label_idx (u16le v))
    | .Short v => .ok (s.fCount - 1, queue, current_st_idx, pack_val_2 s 3 label_idx (i16le v))
    | .DWord v => .ok (s.fCount - 1, queue, current_st_idx, pack_val_4 s 4 label_idx (u32le v))
    | .Int v => .ok (s.fCount - 1, queue, current_st_idx, pack_val_4 s 5 label_idx (i32le v))
    | .DWord64 v => .ok (s.fCount - 1, queue, current_st_idx, pack_val_8 s 6 label_idx (u64le v))
    | .Int64 v => .ok (s.fCount - 1, queue, current_st_idx, pack_val_8 s 7 label_idx (i64le v))
    | .Float bits => .ok (s.fCount - 1, queue, current_st_idx, pack_val_4 s 8 label_idx (u32le bits))
    | .Double bits => .ok (s.fCount - 1, queue, current_st_idx, pack_val_8 s 9 label_idx (u64le bits))
    | .CExoString str =>
      match enc none with
      | .error _ => .error "unwrap panicked on encoding resolver"
      | .ok tag =>
        let s := pack_data_offset s 10 label_idx
        let str_data := encodeChars tag str
        let s := pack_data_u32 s str_data.length
        let s := pack_data_slice s str_data
        .ok (s.fCount - 1, queue, current_st_idx, s)
    | .CResRef str =>
      let s := pack_data_offset s 11 label_idx
      let str_data := utf8Encode (toLowercase str)
      if 16 < str_data.length then .error "ResRef too long"
      else
        let s := { s with field_data := s.field_data ++ [str_data.length],
                          fdCount := s.fdCount + 1 }
        let s := pack_data_slice s str_data
        .ok (s.fCount - 1, queue, current_st_idx, s)
    | .CExoLocString str_ref val =>
      let s := pack_data_offset s 12 label_idx
      match encodeSubstrings enc val with
      | .error e => .error e
      | .ok encoded =>
        let total_len := 8 + substringsLen encoded
        let s := pack_data_u32 s total_len
        let s := pack_data_u32 s str_ref
        let s := pack_data_u32 s val.length
        let s := packSubstrings s encoded
        .ok (s.fCount - 1, queue, current_st_idx, s)
    | .Void data =>
      let s := pack_data_offset s 13 label_idx
      let s := pack_data_u32 s data.length
      let s := pack_data_slice s data
      .ok (s.fCount - 1, queue, current_st_idx, s)
    | .Struct st =>
      let idx := current_st_idx + 1
      .ok (s.fCount - 1, queue ++ [st], idx, pack_val_4 s 14 label_idx (u32le idx))
    | .List vec =>
      let s := pack_val_4 s 15 label_idx (u32le s.liCount)
      let s := pack_list_u32 s vec.length
      let r := packListEntries vec queue current_st_idx s
      .ok (r.2.2.fCount - 1, r.1, r.2.1, r.2.2)
    | .Invalid => .error "Not handled yet"

/-- The field iteration of pack_struct, collecting the returned field
indices. -/
def pack_fields (enc : EncodingFn) :
    List (List Nat × GffFieldValue) → List GffStruct → Nat → PackerState →
    Except String (List Nat × List GffStruct × Nat × PackerState)
  | [], queue, idx, s => .ok ([], queue, idx, s)
  | (name, v) :: r, queue, idx, s =>
    match pack_field enc name v queue idx s with
    | .error e => .error e
    | .ok (fid, queue, idx, s) =>
      match pack_fields enc r queue idx s with
      | .error e => .error e
      | .ok (fids, queue, idx, s) => .ok (fid :: fids, queue, idx, s)

/-- The field_indices flush at the end of pack_struct (one u32 per field
index, the count tracked in bytes). -/
def appendFieldIndices (s : PackerState) : List Nat → PackerState
  | [] => s
  | fid :: r =>
    appendFieldIndices
      { s with field_indices := s.field_indices ++ u32le fid, fiCount := s.fiCount + 4 } r

/-- The struct-record prelude of pack_struct of packer.rs: write the type
tag, then the locator (the current field count for 0 or 1 fields, the
current field_indices byte count otherwise) and the field count, then bump
the struct count. -/
def packStructRecord (input : GffStruct) (s : PackerState) : PackerState :=
  let s := { s with structs := s.structs ++ u32le input.st_type }
  let s :=
    match input.fields.length with
    | 0 => { s with structs := s.structs ++ u32le s.fCount ++ u32le 0 }
    | 1 => { s with structs := s.structs ++ u32le s.fCount ++ u32le 1 }
    | n => { s with structs := s.structs ++ u32le s.fiCount ++ u32le n }
  { s with stCount := s.stCount + 1 }

/-- pack_struct of packer.rs: write the struct record, pack the fields, and
flush the collected indices when there are at least two. -/
def pack_struct (enc : EncodingFn) (input : GffStruct) (queue : List GffStruct)
    (current_st_idx : Nat) (s : PackerState) :
    Except String (List GffStruct × Nat × PackerState) :=
  match pack_fields enc input.fields queue current_st_idx (packStructRecord input s) with
  | .error e => .error e
  | .ok (fids, queue, idx, s) =>
    if 1 < fids.length then .ok (queue, idx, appendFieldIndices s fids)
    else .ok (queue, idx, s)

mutual
/-- Number of struct nodes of a value tree (fuel bound for the pack loop:
the loop pops exactly one struct node per iteration). -/
def totalStructsS : GffStruct → Nat
  | .mk _ fs => 1 + totalStructsFs fs

def totalStructsFs : List (List Nat × GffFieldValue) → Nat
  | [] => 0
  | (_, v) :: r => totalStructsV v + totalStructsFs r

def totalStructsV : GffFieldValue → Nat
  | .Struct s => totalStructsS s
  | .List l => totalStructsL l
  | _ => 0

def totalStructsL : List GffStruct → Nat
  | [] => 0
  | s :: r => totalStructsS s + totalStructsL r
end

/-- The FIFO loop of Packer::pack: pop the front struct, pack it (which may
enqueue sub-structs at the back), repeat until empty. Fuel is a model
artifact; pack passes one unit per struct node of the tree plus one. -/
def pack_loop (enc : EncodingFn) :
    Nat → List GffStruct → Nat → PackerState → Except String PackerState
  | _, [], _, s => .ok s
  | 0, _ :: _, _, _ => .error "model fuel exhausted"
  | f + 1, st :: rest, idx, s =>
    match pack_struct enc st rest idx s with
    | .error e => .error e
    | .ok (queue, idx, s) => pack_loop enc f queue idx s

/-- Packer::finalize and Packer::write: offsets accumulate from 56 in block
order; the header carries the default file type (four spaces) and version
V3.2, then the six offset/count pairs, then the six blocks. The finalize
assertions (count times element size equals block length) hold by
construction and are not modelled as failures. -/
def finalize_write (s : PackerState) : List Nat :=
  let o1 := 56
  let o2 := o1 + s.structs.length
  let o3 := o2 + s.fields.length
  let o4 := o3 + s.labels.length
  let o5 := o4 + s.field_data.length
  let o6 := o5 + s.field_indices.length
  [32, 32, 32, 32] ++ [86, 51, 46, 50] ++
  u32le o1 ++ u32le s.stCount ++
  u32le o2 ++ u32le s.fCount ++
  u32le o3 ++ u32le s.lblCount ++
  u32le o4 ++ u32le s.fdCount ++
  u32le o5 ++ u32le s.fiCount ++
  u32le o6 ++ u32le s.liCount ++
  s.structs ++ s.fields ++ s.labels ++ s.field_data ++ s.field_indices ++ s.list_indices

/-- Packer::pack up to (not including) the final write: run the FIFO loop
from the singleton queue holding the root at current index 0. -/
def pack_data (input : GffStruct) (enc : EncodingFn) : Except String PackerState :=
  pack_loop enc (totalStructsS input + 1) [input] 0 PackerState.empty

/-- Packer::pack of packer.rs: the loop, then finalize and write the
concatenated output. -/
def pack (input : GffStruct) (enc : EncodingFn) : Except String (List Nat) :=
  match pack_data input enc with
  | .error e => .error e
  | .ok s => .ok (finalize_write s)

/-! ## Derived notions used by the claims -/

/-- Whether an Except result is a success. -/
def exceptIsOk {ε α : Type} : Except ε α → Bool
  | .ok _ => true
  | .error _ => false

/-- Whether a field value is the Invalid variant. -/
def isInvalidV : GffFieldValue → Bool
  | .Invalid => true
  | _ => false

/-- Sub-structs a field value makes the packer enqueue. -/
def valueSubStructs : GffFieldValue → List GffStruct
  | .Struct s => [s]
  | .List l => l
  | _ => []

/-- Sub-structs of a field list, in field order. -/
def fieldsSubStructs : List (List Nat × GffFieldValue) → List GffStruct
  | [] => []
  | (_, v) :: r => valueSubStructs v ++ fieldsSubStructs r

/-- Sub-structs the packer enqueues while packing one struct. -/
def subStructsS (st : GffStruct) : List GffStruct := fieldsSubStructs st.fields

/-- Whether some field of the list is directly the Invalid variant. -/
def fieldsHaveDirectInvalid : List (List Nat × GffFieldValue) → Bool
  | [] => false
  | (_, v) :: r => isInvalidV v || fieldsHaveDirectInvalid r

mutual
/-- Whether a struct contains an Invalid field value anywhere in its tree. -/
def structContainsInvalid : GffStruct → Bool
  | .mk _ fs => fieldsContainInvalid fs

/-- Whether a field list contains an Invalid value anywhere below it. -/
def fieldsContainInvalid : List (List Nat × GffFieldValue) → Bool
  | [] => false
  | (_, v) :: r => valueContainsInvalid v || fieldsContainInvalid r

/-- Whether a field value contains Invalid anywhere below it. -/
def valueContainsInvalid : GffFieldValue → Bool
  | .Invalid => true
  | .Struct s => structContainsInvalid s
  | .List l => listContainsInvalid l
  | _ => false

/-- Whether some struct of the list contains Invalid. -/
def listContainsInvalid : List GffStruct → Bool
  | [] => false
  | s :: r => structContainsInvalid s || listContainsInvalid r
end

/-- The header-validity predicate in the amended claim's words: fourteen
4-byte header words; each of the six stored offsets equals the running u32
offset computed from the counts with element sizes 12, 12, 16, 1, 1, 1
starting at 56, where each block byte size is the u32 product count times
element size (reduced mod 2^32, the release-build wrap of the source's u32
multiplication) and the running offset is u32 as well; and the input ends
exactly where the last block ends. Written from the amended claim for
comparison with parse_header, which is written from the source. -/
def headerConsistent (B : List Nat) : Prop :=
  let s1 := 12 * readU32 B 12 % 4294967296
  let s2 := 12 * readU32 B 20 % 4294967296
  let s3 := 16 * readU32 B 28 % 4294967296
  let o1 := (56 + s1) % 4294967296
  let o2 := (o1 + s2) % 4294967296
  let o3 := (o2 + s3) % 4294967296
  let o4 := (o3 + readU32 B 36) % 4294967296
  let o5 := (o4 + readU32 B 44) % 4294967296
  56 ≤ B.length ∧
  readU32 B 8 = 56 ∧
  readU32 B 16 = o1 ∧
  readU32 B 24 = o2 ∧
  readU32 B 32 = o3 ∧
  readU32 B 40 = o4 ∧
  readU32 B 48 = o5 ∧
  B.length = 56 + s1 + s2 + s3 + readU32 B 36 + readU32 B 44 + readU32 B 52

/-! ## Concrete inputs for the evaluation theorems -/

/-- Root struct with type tag 0xFFFFFFFF and one Byte field labelled
field1 (the repo's own test_01 input, satisfying the data-model
invariants). -/
def c1input : GffStruct := .mk 4294967295 [([102, 105, 101, 108, 100, 49], .Byte 1)]

/-- The 96 bytes pack produces for c1input. -/
def c1bytes : List Nat :=
  [32, 32, 32, 32, 86, 51, 46, 50,
   56, 0, 0, 0, 1, 0, 0, 0,
   68, 0, 0, 0, 1, 0, 0, 0,
   80, 0, 0, 0, 1, 0, 0, 0,
   96, 0, 0, 0, 0, 0, 0, 0,
   96, 0, 0, 0, 0, 0, 0, 0,
   96, 0, 0, 0, 0, 0, 0, 0,
   255, 255, 255, 255, 0, 0, 0, 0, 1, 0, 0, 0,
   0, 0, 0, 0, 0, 0, 0, 0, 1, 0, 0, 0,
   102, 105, 101, 108, 100, 49, 0, 0, 0, 0, 0, 0, 0, 0, 0, 0]

/-- The tree parse returns for c1bytes: the same single field, but the
struct type tag replaced by 0. -/
def c2tree : GffStruct := .mk 0 [([102, 105, 101, 108, 100, 49], .Byte 1)]

/-- The 96 bytes pack produces for c2tree: c1bytes with the struct record's
type word zeroed. -/
def c2bytes : List Nat :=
  [32, 32, 32, 32, 86, 51, 46, 50,
   56, 0, 0, 0, 1, 0, 0, 0,
   68, 0, 0, 0, 1, 0, 0, 0,
   80, 0, 0, 0, 1, 0, 0, 0,
   96, 0, 0, 0, 0, 0, 0, 0,
   96, 0, 0, 0, 0, 0, 0, 0,
   96, 0, 0, 0, 0, 0, 0, 0,
   0, 0, 0, 0, 0, 0, 0, 0, 1, 0, 0, 0,
   0, 0, 0, 0, 0, 0, 0, 0, 1, 0, 0, 0,
   102, 105, 101, 108, 100, 49, 0, 0, 0, 0, 0, 0, 0, 0, 0, 0]

/-- A 68-byte buffer whose version field reads 0.00 instead of V3.2 (and
whose file-type tag is XXXX), with consistent offsets and one empty
struct. -/
def c5badVersion : List Nat :=
  [88, 88, 88, 88] ++ [48, 46, 48, 48] ++
  u32le 56 ++ u32le 1 ++ u32le 68 ++ u32le 0 ++ u32le 68 ++ u32le 0 ++
  u32le 68 ++ u32le 0 ++ u32le 68 ++ u32le 0 ++ u32le 68 ++ u32le 0 ++
  List.replicate 12 0

/-- A 68-byte buffer identical to c5badVersion except for a GFF-looking
header and a struct record whose type tag is 0x12345678. -/
def c3bytes : List Nat :=
  [71, 70, 70, 32] ++ [86, 51, 46, 50] ++
  u32le 56 ++ u32le 1 ++ u32le 68 ++ u32le 0 ++ u32le 68 ++ u32le 0 ++
  u32le 68 ++ u32le 0 ++ u32le 68 ++ u32le 0 ++ u32le 68 ++ u32le 0 ++
  u32le 305419896 ++ u32le 0 ++ u32le 0

/-- A 96-byte buffer whose single field record carries type code 16 (one
struct, one field, one label A). -/
def c6bytes : List Nat :=
  [71, 70, 70, 32] ++ [86, 51, 46, 50] ++
  u32le 56 ++ u32le 1 ++ u32le 68 ++ u32le 1 ++ u32le 80 ++ u32le 1 ++
  u32le 96 ++ u32le 0 ++ u32le 96 ++ u32le 0 ++ u32le 96 ++ u32le 0 ++
  (u32le 0 ++ u32le 0 ++ u32le 1) ++
  (u32le 16 ++ u32le 0 ++ u32le 0) ++
  ([65] ++ List.replicate 15 0)

/-- A 98-byte buffer whose single field is a CResRef of one byte 0x80. -/
def c7bytes : List Nat :=
  [71, 70, 70, 32] ++ [86, 51, 46, 50] ++
  u32le 56 ++ u32le 1 ++ u32le 68 ++ u32le 1 ++ u32le 80 ++ u32le 1 ++
  u32le 96 ++ u32le 2 ++ u32le 98 ++ u32le 0 ++ u32le 98 ++ u32le 0 ++
  (u32le 0 ++ u32le 0 ++ u32le 1) ++
  (u32le 11 ++ u32le 0 ++ u32le 0) ++
  ([65] ++ List.replicate 15 0) ++ [1, 128]

/-- A 120-byte buffer whose single field is a List whose two entries both
name struct index 1. -/
def c9bytes : List Nat :=
  [71, 70, 70, 32] ++ [86, 51, 46, 50] ++
  u32le 56 ++ u32le 2 ++ u32le 80 ++ u32le 1 ++ u32le 92 ++ u32le 1 ++
  u32le 108 ++ u32le 0 ++ u32le 108 ++ u32le 0 ++ u32le 108 ++ u32le 12 ++
  (u32le 0 ++ u32le 0 ++ u32le 1) ++ (u32le 0 ++ u32le 0 ++ u32le 0) ++
  (u32le 15 ++ u32le 0 ++ u32le 0) ++
  ([65] ++ List.replicate 15 0) ++
  (u32le 2 ++ u32le 1 ++ u32le 1)

/-- Blocks of a parse whose single field record has type code 16 and label
A (used to instantiate the C6 theorem). -/
def c6wdata : Data :=
  { stCount := 1
    fCount := 1
    fiCount := 0
    structs := List.replicate 12 0
    fields := u32le 16 ++ u32le 0 ++ u32le 0
    labels := [65] ++ List.replicate 15 0
    field_data := []
    field_indices := []
    list_indices := [] }

/-- Blocks of a parse in which field 0 has type 14 pointing at struct index
0 (used to exercise the visited check in isolation). -/
def c9data : Data :=
  { stCount := 1
    fCount := 1
    fiCount := 0
    structs := List.replicate 12 0
    fields := u32le 14 ++ u32le 0 ++ u32le 0
    labels := [65] ++ List.replicate 15 0
    field_data := []
    field_indices := []
    list_indices := [] }

/-- Blocks whose field_data holds the CExoString test (length 4 prefix),
used to instantiate the C7 theorem. -/
def c7wdata : Data :=
  { stCount := 1
    fCount := 1
    fiCount := 0
    structs := List.replicate 12 0
    fields := u32le 10 ++ u32le 0 ++ u32le 0
    labels := [65] ++ List.replicate 15 0
    field_data := [4, 0, 0, 0, 116, 101, 115, 116]
    field_indices := []
    list_indices := [] }

/-- The nested-list scenario of the spec's seed 6 and the repo's test_10:
sub-struct S1 (tag 0x55555555, one Byte field subfield1). -/
def c4sub1 : GffStruct :=
  .mk 1431655765 [([115, 117, 98, 102, 105, 101, 108, 100, 49], .Byte 1)]

/-- Sub-struct S2 (tag 0xAAAAAAAA, one Byte field subfield2). -/
def c4sub2 : GffStruct :=
  .mk 2863311530 [([115, 117, 98, 102, 105, 101, 108, 100, 50], .Byte 2)]

/-- Root (tag 0xFFFFFFFF) with one List field holding S1 then S2. -/
def c4root : GffStruct := .mk 4294967295 [([102, 105, 101, 108, 100, 49], .List [c4sub1, c4sub2])]

/-- Observation of the pack state for c4root: struct count, list_indices
bytes, the type tags stored at struct records 0, 1 and 2, and the structs
block length. -/
def c4probe : Option (Nat × List Nat × Nat × Nat × Nat × Nat) :=
  match pack_data c4root neverwinterNights with
  | .error _ => none
  | .ok s =>
    some (s.stCount, s.list_indices, readU32 s.structs 0, readU32 s.structs 12,
      readU32 s.structs 24, s.structs.length)

/-- A tree holding an Invalid field value (C10 witness input). -/
def c10input : GffStruct := .mk 0 [([65], .Invalid)]

/-! ## Byte-access lemmas and the header characterisation -/

theorem leByte_drop (l : List Nat) (k i : Nat) : leByte (l.drop k) i = leByte l (k + i) := by
  simp [leByte, List.getD_eq_getElem?_getD, List.getElem?_drop]

theorem readU32_drop (l : List Nat) (k : Nat) : readU32 (l.drop k) 0 = readU32 l k := by
  simp [readU32, leByte_drop]

theorem nomTake_some (n : Nat) (l : List Nat) (h : n ≤ l.length) :
    nomTake n l = some (l.take n, l.drop n) := by
  unfold nomTake; rw [if_pos h]

theorem le_u32_drop (l : List Nat) (k : Nat) (h : k + 4 ≤ l.length) :
    le_u32 (l.drop k) = some (readU32 l k, l.drop (k + 4)) := by
  unfold le_u32
  rw [if_pos (by simp only [List.length_drop]; omega)]
  rw [readU32_drop, List.drop_drop]

theorem le_u8_drop (l : List Nat) (k : Nat) (h : k + 1 ≤ l.length) :
    le_u8 (l.drop k) = some (leByte l k, l.drop (k + 1)) := by
  unfold le_u8
  rw [if_pos (by simp only [List.length_drop]; omega)]
  rw [List.drop_drop]
  simp [leByte_drop]

theorem parse_header_isSome_iff (B : List Nat) :
    (parse_header B).isSome ↔ headerConsistent B := by
  unfold parse_header headerConsistent
  by_cases h0 : 56 ≤ B.length
  · rw [if_pos h0]
    simp only [List.length_drop]
    split_ifs with h1 h2 h3 h4 h5 h6
    · obtain ⟨h1a, h1b⟩ := h1
      obtain ⟨h2a, h2b⟩ := h2
      obtain ⟨h3a, h3b⟩ := h3
      obtain ⟨h4a, h4b⟩ := h4
      obtain ⟨h5a, h5b⟩ := h5
      obtain ⟨h6a, h6b⟩ := h6
      simp only [Option.isSome_some, true_iff]
      exact ⟨h0, h1a, h2a, h3a, h4a, h5a, h6a, by omega⟩
    · simp only [Option.isSome_none, Bool.false_eq_true, false_iff]
      intro hc
      obtain ⟨hcL, hc1, hc2, hc3, hc4, hc5, hc6, hcE⟩ := hc
      obtain ⟨h1a, h1b⟩ := h1
      obtain ⟨h2a, h2b⟩ := h2
      obtain ⟨h3a, h3b⟩ := h3
      obtain ⟨h4a, h4b⟩ := h4
      obtain ⟨h5a, h5b⟩ := h5
      exact h6 ⟨hc6, by omega⟩
    · simp only [Option.isSome_none, Bool.false_eq_true, false_iff]
      intro hc
      obtain ⟨hcL, hc1, hc2, hc3, hc4, hc5, hc6, hcE⟩ := hc
      obtain ⟨h1a, h1b⟩ := h1
      obtain ⟨h2a, h2b⟩ := h2
      obtain ⟨h3a, h3b⟩ := h3
      obtain ⟨h4a, h4b⟩ := h4
      exact h5 ⟨hc5, by omega⟩
    · simp only [Option.isSome_none, Bool.false_eq_true, false_iff]
      intro hc
      obtain ⟨hcL, hc1, hc2, hc3, hc4, hc5, hc6, hcE⟩ := hc
      obtain ⟨h1a, h1b⟩ := h1
      obtain ⟨h2a, h2b⟩ := h2
      obtain ⟨h3a, h3b⟩ := h3
      exact h4 ⟨hc4, by omega⟩
    · simp only [Option.isSome_none, Bool.false_eq_true, false_iff]
      intro hc
      obtain ⟨hcL, hc1, hc2, hc3, hc4, hc5, hc6, hcE⟩ := hc
      obtain ⟨h1a, h1b⟩ := h1
      obtain ⟨h2a, h2b⟩ := h2
      exact h3 ⟨hc3, by omega⟩
    · simp only [Option.isSome_none, Bool.false_eq_true, false_iff]
      intro hc
      obtain ⟨hcL, hc1, hc2, hc3, hc4, hc5, hc6, hcE⟩ := hc
      obtain ⟨h1a, h1b⟩ := h1
      exact h2 ⟨hc2, by omega⟩
    · simp only [Option.isSome_none, Bool.false_eq_true, false_iff]
      intro hc
      obtain ⟨hcL, hc1, hc2, hc3, hc4, hc5, hc6, hcE⟩ := hc
      exact h1 ⟨hc1, by omega⟩
  · rw [if_neg h0]
    simp only [Option.isSome_none, Bool.false_eq_true, false_iff]
    intro h
    exact h0 h.1

/-! ## Parser lemmas used by the claims -/

/-- C5 (amended): parse fails with the header-phase error MalformedHeader
exactly when the offset table is inconsistent: the input is shorter than
56 bytes, some stored (offset, count) pair disagrees with the running u32
offset computed with element sizes 12, 12, 16, 1, 1, 1 starting at 56
(the struct, field and label block byte sizes are u32 products, wrapping
mod 2^32 as in a release build, and the running offset is u32 too), the
input is too short to supply a block, or bytes remain after the last
block. The magic and version bytes are not checked (see the
counterexample c5_version_not_checked). -/
theorem c5_malformed_header_iff (B : List Nat) (enc : EncodingFn) :
    parse B enc = .error .MalformedHeader ↔ ¬ headerConsistent B := by
  rw [← parse_header_isSome_iff]
  unfold parse
  cases hh : parse_header B with
  | none => simp
  | some d =>
    simp only [Option.isSome_some, Bool.true_eq_false, not_true_eq_false, iff_false]
    cases hps : parse_struct enc d (B.length + 64) [] 0 with
    | error e => simp
    | ok p => cases p with | mk st vis => simp

theorem parse_value_ge16 (enc : EncodingFn) (d : Data)
    (ps : List Nat → Nat → Except DErr (GffStruct × List Nat))
    (pl : List Nat → Nat → Except DErr (List GffStruct × List Nat))
    (visited input : List Nat) (t : Nat) (ht : 16 ≤ t) :
    parse_value enc d ps pl visited t input = .ok (.Invalid, visited) := by
  unfold parse_value
  rw [if_neg (by omega : ¬ t = 0), if_neg (by omega : ¬ t = 1),
    if_neg (by omega : ¬ t = 2), if_neg (by omega : ¬ t = 3),
    if_neg (by omega : ¬ t = 4), if_neg (by omega : ¬ t = 5),
    if_neg (by omega : ¬ t = 6), if_neg (by omega : ¬ t = 7),
    if_neg (by omega : ¬ t = 8), if_neg (by omega : ¬ t = 9),
    if_neg (by omega : ¬ t = 10), if_neg (by omega : ¬ t = 11),
    if_neg (by omega : ¬ t = 12), if_neg (by omega : ¬ t = 13),
    if_neg (by omega : ¬ t = 14), if_neg (by omega : ¬ t = 15)]

theorem parse_value_14_mem (enc : EncodingFn) (d : Data)
    (ps : List Nat → Nat → Except DErr (GffStruct × List Nat))
    (pl : List Nat → Nat → Except DErr (List GffStruct × List Nat))
    (visited input : List Nat)
    (hlen : 4 ≤ input.length)
    (hmem : memNat (readU32 input 0) visited = true) :
    parse_value enc d ps pl visited 14 input = .error .CycleDetected := by
  unfold parse_value
  simp [le_u32, hlen, hmem]

/-- C6 (amended): a field record whose type code is 16 or greater does not
make parse fail; parse_field returns the field with the Invalid value (the
source prints a warning and continues). Stated for any fuel, visited set
and blocks in which the record and its label are readable. -/
theorem c6_bad_field_type_yields_invalid (enc : EncodingFn) (d : Data) (f : Nat) (visited : List Nat)
    (f_idx : Nat) (label : List Nat)
    (hidx : f_idx < d.fCount)
    (hlen : 12 * f_idx + 8 ≤ d.fields.length)
    (ht : 16 ≤ readU32 d.fields (12 * f_idx))
    (hlbl : parse_label d (readU32 d.fields (12 * f_idx + 4)) = some label) :
    parse_field enc d (f + 1) visited f_idx = .ok ((label, .Invalid), visited) := by
  have e1 : parse_field enc d (f + 1) visited f_idx =
      pFieldF enc d (parsers enc d f) visited f_idx := rfl
  rw [e1]
  unfold pFieldF
  rw [if_pos hidx]
  simp only [nomTake_some (12 * f_idx) d.fields (by omega),
    le_u32_drop d.fields (12 * f_idx) (by omega),
    le_u32_drop d.fields (12 * f_idx + 4) (by omega),
    parse_value_ge16 enc d _ _ visited _ _ ht, hlbl]

theorem c9_field14 (enc : EncodingFn) (d : Data) (f : Nat) (visited : List Nat)
    (f_idx : Nat)
    (hidx : f_idx < d.fCount)
    (hlen : 12 * f_idx + 12 ≤ d.fields.length)
    (ht : readU32 d.fields (12 * f_idx) = 14)
    (hmem : memNat (readU32 d.fields (12 * f_idx + 8)) visited = true) :
    parse_field enc d (f + 1) visited f_idx = .error .CycleDetected := by
  have e1 : parse_field enc d (f + 1) visited f_idx =
      pFieldF enc d (parsers enc d f) visited f_idx := rfl
  rw [e1]
  unfold pFieldF
  rw [if_pos hidx]
  have h48 : 12 * f_idx + 4 + 4 = 12 * f_idx + 8 := by omega
  have hmem0 : memNat (readU32 (d.fields.drop (12 * f_idx + 8)) 0) visited = true := by
    rw [readU32_drop]; exact hmem
  simp only [nomTake_some (12 * f_idx) d.fields (by omega),
    le_u32_drop d.fields (12 * f_idx) (by omega),
    le_u32_drop d.fields (12 * f_idx + 4) (by omega), ht, h48,
    parse_value_14_mem enc d _ _ visited (d.fields.drop (12 * f_idx + 8))
      (by simp only [List.length_drop]; omega) hmem0]

theorem c9_list_entry (ps : List Nat → Nat → Except DErr (GffStruct × List Nat))
    (visited input : List Nat) (n : Nat)
    (hlen : 4 ≤ input.length)
    (hmem : memNat (readU32 input 0) visited = true) :
    listLoopWith ps visited input (n + 1) = .error .CycleDetected := by
  unfold listLoopWith le_u32
  rw [if_pos hlen]
  simp [hmem]

theorem c7_cexostring (d : Data) (offset : Nat)
    (ho : offset + 4 ≤ d.field_data.length)
    (h5 : readU32 d.field_data offset ≤ (d.field_data.drop (offset + 4)).length)
    (hb1 : ((d.field_data.drop (offset + 4)).take (readU32 d.field_data offset)).take 3
      ≠ [239, 187, 191])
    (hb2 : ((d.field_data.drop (offset + 4)).take (readU32 d.field_data offset)).take 2
      ≠ [255, 254])
    (hb3 : ((d.field_data.drop (offset + 4)).take (readU32 d.field_data offset)).take 2
      ≠ [254, 255]) :
    parse_cexostring neverwinterNights d offset = .ok (.CExoString
      (((d.field_data.drop (offset + 4)).take (readU32 d.field_data offset)).map
        win1252Char)) := by
  unfold parse_cexostring
  simp only [neverwinterNights, nomTake_some offset d.field_data (by omega),
    le_u32_drop d.field_data offset ho, nomTake_some _ _ h5]
  unfold decodeBytes
  rw [if_neg hb1, if_neg hb2, if_neg hb3]

theorem c7_cresref (d : Data) (offset : Nat)
    (ho : offset + 1 ≤ d.field_data.length)
    (h5 : leByte d.field_data offset ≤ (d.field_data.drop (offset + 1)).length) :
    parse_cresref d offset = .ok (.CResRef
      ((d.field_data.drop (offset + 1)).take (leByte d.field_data offset))) := by
  unfold parse_cresref
  simp only [nomTake_some offset d.field_data (by omega),
    le_u8_drop d.field_data offset ho, nomTake_some _ _ h5]

/-! ## Packer lemmas: a tree containing Invalid never packs -/

theorem pack_field_invalid (enc : EncodingFn) (name : List Nat) (q : List GffStruct)
    (idx : Nat) (s : PackerState) :
    exceptIsOk (pack_field enc name .Invalid q idx s) = false := by
  unfold pack_field
  cases h : pack_label s name with
  | error e => simp [exceptIsOk]
  | ok p =>
    obtain ⟨li, s1⟩ := p
    simp [exceptIsOk]

theorem pack_fields_direct (enc : EncodingFn) (fields : List (List Nat × GffFieldValue)) :
    ∀ (q : List GffStruct) (idx : Nat) (s : PackerState),
    fieldsHaveDirectInvalid fields = true →
    exceptIsOk (pack_fields enc fields q idx s) = false := by
  induction fields with
  | nil => intro q idx s hd; simp [fieldsHaveDirectInvalid] at hd
  | cons p r ih =>
    intro q idx s hd
    obtain ⟨name, v⟩ := p
    simp only [fieldsHaveDirectInvalid, Bool.or_eq_true] at hd
    unfold pack_fields
    cases hf : pack_field enc name v q idx s with
    | error e => simp [hf, exceptIsOk]
    | ok t =>
      obtain ⟨fid, q2, idx2, s2⟩ := t
      rcases hd with hv | hr
      · cases v <;> simp [isInvalidV] at hv
        have hbad := pack_field_invalid enc name q idx s
        rw [hf] at hbad
        simp [exceptIsOk] at hbad
      · cases hrec : pack_fields enc r q2 idx2 s2 with
        | error e => simp [hf, hrec, exceptIsOk]
        | ok t2 =>
          have := ih q2 idx2 s2 hr
          rw [hrec] at this
          simp [exceptIsOk] at this

theorem packListEntries_queue (vec : List GffStruct) :
    ∀ (q : List GffStruct) (idx : Nat) (s : PackerState),
    (packListEntries vec q idx s).1 = q ++ vec := by
  induction vec with
  | nil => intro q idx s; simp [packListEntries]
  | cons st r ih =>
    intro q idx s
    rw [packListEntries, ih]
    simp

theorem pack_field_queue (enc : EncodingFn) (name : List Nat) (v : GffFieldValue)
    (q : List GffStruct) (idx : Nat) (s : PackerState)
    (fid : Nat) (q2 : List GffStruct) (idx2 : Nat) (s2 : PackerState)
    (h : pack_field enc name v q idx s = .ok (fid, q2, idx2, s2)) :
    q2 = q ++ valueSubStructs v := by
  unfold pack_field at h
  cases hpl : pack_label s name with
  | error e => rw [hpl] at h; exact absurd h (by simp)
  | ok p =>
    obtain ⟨li, s1⟩ := p
    rw [hpl] at h
    cases v with
    | Byte a => simp only [Except.ok.injEq, Prod.mk.injEq] at h; simp [valueSubStructs, h.2.1.symm]
    | Char a => simp only [Except.ok.injEq, Prod.mk.injEq] at h; simp [valueSubStructs, h.2.1.symm]
    | Word a => simp only [Except.ok.injEq, Prod.mk.injEq] at h; simp [valueSubStructs, h.2.1.symm]
    | Short a => simp only [Except.ok.injEq, Prod.mk.injEq] at h; simp [valueSubStructs, h.2.1.symm]
    | DWord a => simp only [Except.ok.injEq, Prod.mk.injEq] at h; simp [valueSubStructs, h.2.1.symm]
    | Int a => simp only [Except.ok.injEq, Prod.mk.injEq] at h; simp [valueSubStructs, h.2.1.symm]
    | DWord64 a => simp only [Except.ok.injEq, Prod.mk.injEq] at h; simp [valueSubStructs, h.2.1.symm]
    | Int64 a => simp only [Except.ok.injEq, Prod.mk.injEq] at h; simp [valueSubStructs, h.2.1.symm]
    | Float a => simp only [Except.ok.injEq, Prod.mk.injEq] at h; simp [valueSubStructs, h.2.1.symm]
    | Double a => simp only [Except.ok.injEq, Prod.mk.injEq] at h; simp [valueSubStructs, h.2.1.symm]
    | CExoString str =>
      cases he : enc none with
      | error e => rw [he] at h; exact absurd h (by simp)
      | ok tag =>
        rw [he] at h
        simp only [Except.ok.injEq, Prod.mk.injEq] at h
        simp [valueSubStructs, h.2.1.symm]
    | CResRef str =>
      by_cases hlen : 16 < (utf8Encode (toLowercase str)).length
      · simp only [if_pos hlen] at h
        exact absurd h (by simp)
      · simp only [if_neg hlen, Except.ok.injEq, Prod.mk.injEq] at h
        simp [valueSubStructs, h.2.1.symm]
    | CExoLocString tlk val =>
      cases he : encodeSubstrings enc val with
      | error e =>
        simp only [he] at h
        exact absurd h (by simp)
      | ok encoded =>
        simp only [he, Except.ok.injEq, Prod.mk.injEq] at h
        simp [valueSubStructs, h.2.1.symm]
    | Void data => simp only [Except.ok.injEq, Prod.mk.injEq] at h; simp [valueSubStructs, h.2.1.symm]
    | Struct st => simp only [Except.ok.injEq, Prod.mk.injEq] at h; simp [valueSubStructs, h.2.1.symm]
    | List vec =>
      simp only [Except.ok.injEq, Prod.mk.injEq] at h
      simp only [valueSubStructs]
      rw [← h.2.1, packListEntries_queue]
    | Invalid => exact absurd h (by simp)

theorem pack_fields_queue (enc : EncodingFn) (fields : List (List Nat × GffFieldValue)) :
    ∀ (q : List GffStruct) (idx : Nat) (s : PackerState)
      (fids : List Nat) (q2 : List GffStruct) (idx2 : Nat) (s2 : PackerState),
    pack_fields enc fields q idx s = .ok (fids, q2, idx2, s2) →
    q2 = q ++ fieldsSubStructs fields := by
  induction fields with
  | nil =>
    intro q idx s fids q2 idx2 s2 h
    simp only [pack_fields, Except.ok.injEq, Prod.mk.injEq] at h
    simp [fieldsSubStructs, h.2.1.symm]
  | cons p r ih =>
    intro q idx s fids q2 idx2 s2 h
    obtain ⟨name, v⟩ := p
    unfold pack_fields at h
    cases hf : pack_field enc name v q idx s with
    | error e => simp only [hf] at h; exact absurd h (by simp)
    | ok t =>
      obtain ⟨fid, qa, idxa, sa⟩ := t
      simp only [hf] at h
      cases hr : pack_fields enc r qa idxa sa with
      | error e => simp only [hr] at h; exact absurd h (by simp)
      | ok t2 =>
        obtain ⟨fidsb, qb, idxb, sb⟩ := t2
        simp only [hr, Except.ok.injEq, Prod.mk.injEq] at h
        have h1 : qa = q ++ valueSubStructs v := pack_field_queue enc name v q idx s _ _ _ _ hf
        have h2 : qb = qa ++ fieldsSubStructs r := ih qa idxa sa _ _ _ _ hr
        rw [← h.2.1, h2, h1]
        simp [fieldsSubStructs, List.append_assoc]

theorem pack_struct_queue (enc : EncodingFn) (input : GffStruct)
    (q : List GffStruct) (idx : Nat) (s : PackerState)
    (q2 : List GffStruct) (idx2 : Nat) (s2 : PackerState)
    (h : pack_struct enc input q idx s = .ok (q2, idx2, s2)) :
    q2 = q ++ subStructsS input := by
  unfold pack_struct at h
  cases hpf : pack_fields enc input.fields q idx (packStructRecord input s) with
  | error e => simp only [hpf] at h; exact absurd h (by simp)
  | ok t =>
    obtain ⟨fids, qa, idxa, sa⟩ := t
    simp only [hpf] at h
    have hq := pack_fields_queue enc input.fields q idx _ _ _ _ _ hpf
    by_cases hlen : 1 < fids.length
    · rw [if_pos hlen] at h
      simp only [Except.ok.injEq, Prod.mk.injEq] at h
      rw [← h.1, hq]; rfl
    · rw [if_neg hlen] at h
      simp only [Except.ok.injEq, Prod.mk.injEq] at h
      rw [← h.1, hq]; rfl

theorem pack_struct_direct (enc : EncodingFn) (input : GffStruct)
    (q : List GffStruct) (idx : Nat) (s : PackerState)
    (hd : fieldsHaveDirectInvalid input.fields = true) :
    exceptIsOk (pack_struct enc input q idx s) = false := by
  unfold pack_struct
  cases hpf : pack_fields enc input.fields q idx (packStructRecord input s) with
  | error e => simp [exceptIsOk]
  | ok t =>
    have := pack_fields_direct enc input.fields q idx (packStructRecord input s) hd
    rw [hpf] at this
    simp [exceptIsOk] at this

theorem listContainsInvalid_append (a b : List GffStruct) :
    listContainsInvalid (a ++ b) = (listContainsInvalid a || listContainsInvalid b) := by
  induction a with
  | nil => simp [listContainsInvalid]
  | cons st r ih => simp [listContainsInvalid, ih, Bool.or_assoc]

theorem value_invalid_cases (v : GffFieldValue) (hv : valueContainsInvalid v = true) :
    isInvalidV v = true ∨ listContainsInvalid (valueSubStructs v) = true := by
  cases v <;>
    simp_all [valueContainsInvalid, isInvalidV, valueSubStructs, listContainsInvalid,
      structContainsInvalid]

theorem fields_invalid_cases (fs : List (List Nat × GffFieldValue))
    (hf : fieldsContainInvalid fs = true) :
    fieldsHaveDirectInvalid fs = true ∨ listContainsInvalid (fieldsSubStructs fs) = true := by
  induction fs with
  | nil => simp [fieldsContainInvalid] at hf
  | cons p r ih =>
    obtain ⟨name, v⟩ := p
    simp only [fieldsContainInvalid, Bool.or_eq_true] at hf
    simp only [fieldsHaveDirectInvalid, fieldsSubStructs, listContainsInvalid_append,
      Bool.or_eq_true]
    rcases hf with hv | hr
    · rcases value_invalid_cases v hv with h1 | h1
      · exact Or.inl (Or.inl h1)
      · exact Or.inr (Or.inl h1)
    · rcases ih hr with h1 | h1
      · exact Or.inl (Or.inr h1)
      · exact Or.inr (Or.inr h1)

theorem pack_loop_invalid (enc : EncodingFn) (fuel : Nat) :
    ∀ (q : List GffStruct) (idx : Nat) (s : PackerState),
    listContainsInvalid q = true →
    exceptIsOk (pack_loop enc fuel q idx s) = false := by
  induction fuel with
  | zero =>
    intro q idx s h
    cases q with
    | nil => simp [listContainsInvalid] at h
    | cons st rest => simp [pack_loop, exceptIsOk]
  | succ f ih =>
    intro q idx s h
    cases q with
    | nil => simp [listContainsInvalid] at h
    | cons st rest =>
      unfold pack_loop
      cases hps : pack_struct enc st rest idx s with
      | error e => simp [exceptIsOk]
      | ok t =>
        obtain ⟨qa, idxa, sa⟩ := t
        have hqa : qa = rest ++ subStructsS st := pack_struct_queue enc st rest idx s _ _ _ hps
        apply ih
        simp only [listContainsInvalid, Bool.or_eq_true] at h
        rw [hqa, listContainsInvalid_append, Bool.or_eq_true]
        rcases h with hst | hrest
        · obtain ⟨t0, fs⟩ := st
          rw [structContainsInvalid] at hst
          rcases fields_invalid_cases fs hst with hdir | hsub
          · have := pack_struct_direct enc (GffStruct.mk t0 fs) rest idx s hdir
            rw [hps] at this
            simp [exceptIsOk] at this
          · exact Or.inr hsub
        · exact Or.inl hrest

/-- C10: a value tree containing the Invalid variant anywhere can never be
packed: pack returns an error (the catch-all arm of pack_field) rather
than producing output bytes. -/
theorem c10_invalid_never_packs (enc : EncodingFn) (T : GffStruct)
    (h : structContainsInvalid T = true) :
    exceptIsOk (pack T enc) = false := by
  unfold pack pack_data
  cases hpl : pack_loop enc (totalStructsS T + 1) [T] 0 PackerState.empty with
  | error e => simp [exceptIsOk]
  | ok s =>
    have := pack_loop_invalid enc (totalStructsS T + 1) [T] 0 PackerState.empty
      (by simp [listContainsInvalid, h])
    rw [hpl] at this
    simp [exceptIsOk] at this

/-! ## Claim theorems, counterexamples and witnesses -/

set_option maxHeartbeats 1000000 in
/-- C1: parse of pack does not return the original tree. At the concrete
invariant-satisfying tree c1input (root type tag 0xFFFFFFFF, one Byte
field), pack succeeds, but parsing the produced bytes returns a tree with
the same fields and struct type 0: parse_struct discards the tag, so
parse(pack(T)) differs from T at st_type and the round-trip law fails. -/
theorem c1_parse_pack_drops_struct_type :
    pack c1input neverwinterNights = .ok c1bytes ∧
    parse c1bytes neverwinterNights = .ok (GffStruct.mk 0 c1input.fields) ∧
    c1input.st_type = 4294967295 := ⟨rfl, rfl, rfl⟩

set_option maxHeartbeats 1000000 in
/-- C2: pack of parse does not reproduce a pack-produced buffer byte for
byte. c1bytes is produced by pack; parsing it and repacking yields
c2bytes, which differs from c1bytes (at bytes 56 to 59, the struct
record's type word, zeroed because parse drops the tag). -/
theorem c2_pack_parse_pack_byte_identity_fails :
    pack c1input neverwinterNights = .ok c1bytes ∧
    parse c1bytes neverwinterNights = .ok c2tree ∧
    pack c2tree neverwinterNights = .ok c2bytes ∧
    c1bytes ≠ c2bytes := ⟨rfl, rfl, rfl, by decide⟩

set_option maxHeartbeats 1000000 in
/-- C3: the struct type tag is not preserved by parse. c3bytes stores
0x12345678 in its struct record's type word, yet the parsed tree carries
st_type 0 (the tag read at parser.rs line 149 is discarded and the
GffStruct literal omits the field). The pack direction does write the tag
(packer.rs line 147; see c4_breadth_first_struct_indices, whose structs
block stores each input tag). -/
theorem c3_struct_type_tag_dropped_by_parse :
    parse c3bytes neverwinterNights = .ok (GffStruct.mk 0 []) ∧
    readU32 c3bytes 56 = 305419896 ∧
    (GffStruct.mk 0 []).st_type ≠ 305419896 := ⟨rfl, by decide, by decide⟩

set_option maxHeartbeats 1000000 in
/-- C4: breadth-first struct index assignment, at the spec's seed scenario:
a root with one List field holding S1 then S2 packs to struct count 3,
list_indices holding the three u32 values 2, 1, 2 (size, index of S1,
index of S2), the root record at index 0 and the records of S1 and S2 at
indices 1 and 2 of the structs block (their type tags are read back at
byte offsets 12 and 24), with the structs block exactly 36 bytes. -/
theorem c4_breadth_first_struct_indices :
    c4probe = some (3, [2, 0, 0, 0, 1, 0, 0, 0, 2, 0, 0, 0],
      4294967295, 1431655765, 2863311530, 36) := rfl

set_option maxHeartbeats 1000000 in
/-- C5 counterexample: a buffer whose version field is 0.00 (not V3.2) and
whose file-type tag is XXXX parses successfully, so parse does not fail
with MalformedHeader on a wrong magic or version, contrary to the claim. -/
theorem c5_version_not_checked :
    parse c5badVersion neverwinterNights = .ok (GffStruct.mk 0 []) ∧
    (c5badVersion.drop 4).take 4 = [48, 46, 48, 48] ∧
    [48, 46, 48, 48] ≠ [86, 51, 46, 50] := ⟨rfl, by decide, by decide⟩

set_option maxHeartbeats 1000000 in
/-- C6 counterexample: c6bytes carries a single field record with type code
16, and parse succeeds, returning the field with the Invalid value — it
does not fail with BadFieldType as the claim states. -/
theorem c6_bad_type_parses_as_invalid_cx :
    parse c6bytes neverwinterNights = .ok (GffStruct.mk 0 [([65], .Invalid)]) ∧
    readU32 c6bytes 68 = 16 := ⟨rfl, by decide⟩

/-- C6 witness: the amended theorem applied to concrete blocks whose single
field record has type code 16 and label A. -/
theorem c6_bad_field_type_yields_invalid_witness :
    parse_field neverwinterNights c6wdata 1 [] 0 = .ok (([65], .Invalid), []) :=
  c6_bad_field_type_yields_invalid neverwinterNights c6wdata 0 [] 0 [65]
    (by decide) (by decide) (by decide) rfl

/-- C7 (amended): parse_cexostring hands the stored bytes to the decode
method of the encoding the NeverwinterNights resolver returns for None,
Windows-1252; that decode sniffs a byte-order mark first, so whenever the
stored bytes do not begin with EF BB BF, FF FE or FE FF they are decoded
by the Windows-1252 byte map (a BOM-prefixed payload is instead decoded
as UTF-8 or UTF-16). parse_cresref does not consult the resolver at all
and returns each stored byte as the Unicode scalar of the same value.
Both are stated whenever the field data is long enough for the read. -/
theorem c7_string_decoding :
    (∀ (d : Data) (offset : Nat),
      offset + 4 ≤ d.field_data.length →
      readU32 d.field_data offset ≤ (d.field_data.drop (offset + 4)).length →
      ((d.field_data.drop (offset + 4)).take (readU32 d.field_data offset)).take 3
        ≠ [239, 187, 191] →
      ((d.field_data.drop (offset + 4)).take (readU32 d.field_data offset)).take 2
        ≠ [255, 254] →
      ((d.field_data.drop (offset + 4)).take (readU32 d.field_data offset)).take 2
        ≠ [254, 255] →
      parse_cexostring neverwinterNights d offset = .ok (.CExoString
        (((d.field_data.drop (offset + 4)).take (readU32 d.field_data offset)).map
          win1252Char))) ∧
    (∀ (d : Data) (offset : Nat),
      offset + 1 ≤ d.field_data.length →
      leByte d.field_data offset ≤ (d.field_data.drop (offset + 1)).length →
      parse_cresref d offset = .ok (.CResRef
        ((d.field_data.drop (offset + 1)).take (leByte d.field_data offset)))) :=
  ⟨fun d offset ho h5 hb1 hb2 hb3 => c7_cexostring d offset ho h5 hb1 hb2 hb3,
   fun d offset ho h5 => c7_cresref d offset ho h5⟩

/-- C7 witness: the CExoString half applied to blocks whose field data
stores the four bytes of test behind a u32 length prefix (no byte-order
mark). -/
theorem c7_string_decoding_witness :
    parse_cexostring neverwinterNights c7wdata 0 = .ok (.CExoString
      (((c7wdata.field_data.drop (0 + 4)).take (readU32 c7wdata.field_data 0)).map
        win1252Char)) :=
  c7_string_decoding.1 c7wdata 0 (by decide) (by decide) (by decide) (by decide)
    (by decide)

set_option maxHeartbeats 1000000 in
/-- C7 counterexample: a full parse of a buffer whose CResRef field stores
the single byte 0x80 returns the scalar 0x80, while the resolver's
Windows-1252 decoding of that byte is the euro sign U+20AC (8364): CResRef
is not decoded through the resolver. -/
theorem c7_cresref_bypasses_resolver_cx :
    parse c7bytes neverwinterNights = .ok (GffStruct.mk 0 [([65], .CResRef [128])]) ∧
    neverwinterNights none = .ok .Windows1252 ∧
    decodeBytes .Windows1252 [128] = [8364] ∧
    ([128] : List Nat) ≠ [8364] := ⟨rfl, rfl, rfl, by decide⟩

/-- C8: the substring key codec round-trips: for every language and gender
of the fixed enums, decoding (gender is key mod 2, language is key div 2)
the key the packer writes (gender + 2 times language) returns exactly the
original pair. -/
theorem c8_lang_gender_key_roundtrip (lang : GffLang) (gender : GffGender) :
    decodeLangGender (packLangGenderKey lang gender) = some (lang, gender) := by
  cases lang <;> cases gender <;> rfl

set_option maxHeartbeats 1000000 in
/-- C9: cycle detection. First, a type-14 field whose slot names a struct
index already in the visited set fails with CycleDetected, with no
condition on the target struct — the membership check precedes the
recursion. Second, a list whose first entry is already visited fails with
CycleDetected for every struct parser — again the check precedes
recursion. Third, a full parse of a buffer whose list holds the same
struct index twice fails with CycleDetected. -/
theorem c9_cycle_detection :
    (∀ (enc : EncodingFn) (d : Data) (f : Nat) (visited : List Nat) (f_idx : Nat),
      f_idx < d.fCount →
      12 * f_idx + 12 ≤ d.fields.length →
      readU32 d.fields (12 * f_idx) = 14 →
      memNat (readU32 d.fields (12 * f_idx + 8)) visited = true →
      parse_field enc d (f + 1) visited f_idx = .error .CycleDetected) ∧
    (∀ (ps : List Nat → Nat → Except DErr (GffStruct × List Nat))
       (visited input : List Nat) (n : Nat),
      4 ≤ input.length →
      memNat (readU32 input 0) visited = true →
      listLoopWith ps visited input (n + 1) = .error .CycleDetected) ∧
    parse c9bytes neverwinterNights = .error (.DataError .CycleDetected) :=
  ⟨fun enc d f visited f_idx h1 h2 h3 h4 => c9_field14 enc d f visited f_idx h1 h2 h3 h4,
   fun ps visited input n h1 h2 => c9_list_entry ps visited input n h1 h2,
   rfl⟩

/-- C9 witness: the type-14 component applied to blocks whose field 0
points at struct index 0 with 0 already visited. -/
theorem c9_cycle_detection_witness :
    parse_field neverwinterNights c9data 1 [0] 0 = .error .CycleDetected :=
  c9_cycle_detection.1 neverwinterNights c9data 0 [0] 0
    (by decide) (by decide) (by decide) (by decide)

/-- C10 witness: the theorem applied to the concrete tree with one Invalid
field. -/
theorem c10_invalid_never_packs_witness :
    exceptIsOk (pack c10input neverwinterNights) = false :=
  c10_invalid_never_packs neverwinterNights c10input
    (by simp [c10input, structContainsInvalid, fieldsContainInvalid, valueContainsInvalid])

end GffRs
